import Mathlib

set_option maxRecDepth 4000

/-!
Shallow embedding of the teamspeak-management-tools core: the protocol
codec (`src/socketlib.rs`) and the auto-channel automation engine
(`src/auto_channel.rs`).  Rust strings are modelled as `List Char` so that
every operation is structurally recursive and kernel-evaluable.  Types
declared in the repository's `types` module (absent from the sources we
have) are modelled from the spec and marked as such in their doc comments.
-/

/-- Rust strings are modelled as lists of characters. -/
abbrev Str := List Char

deriving instance DecidableEq for Except

/-- Coerce a Lean string literal into the `Str` model. -/
def strLit (s : String) : Str := s.data

/-- Split a character list at every occurrence of `sep` (the separator is
dropped); mirrors Rust `str::split(sep)`, which always yields at least one
(possibly empty) piece. -/
def splitOnChar (sep : Char) : Str → List Str
  | [] => [[]]
  | c :: cs =>
    match splitOnChar sep cs with
    | [] => [[]]
    | r :: rs => if c = sep then [] :: r :: rs else (c :: r) :: rs

/-- Drop a single trailing carriage return, as Rust `str::lines` does for
segments that were terminated by a newline. -/
def stripCR (p : Str) : Str :=
  match p.getLast? with
  | some '\r' => p.dropLast
  | _ => p

/-- Interior segments of a line split: every one was followed by `'\n'`,
so a trailing `'\r'` is removed; the final segment is kept verbatim and
dropped entirely when empty (optional final line terminator). -/
def rustLinesAux : List Str → List Str
  | [] => []
  | [last] => if last = [] then [] else [last]
  | p :: ps => stripCR p :: rustLinesAux ps

/-- Model of Rust `str::lines`: split at `'\n'`, strip a `'\r'` that
immediately preceded a `'\n'`, and treat the final line terminator as
optional. -/
def rustLines (s : Str) : List Str := rustLinesAux (splitOnChar '\n' s)

/-- Trim leading and trailing ASCII whitespace, modelling Rust
`str::trim` on the ASCII inputs the protocol produces. -/
def trimStr (s : Str) : Str :=
  ((s.dropWhile Char.isWhitespace).reverse.dropWhile Char.isWhitespace).reverse

/-- Accumulate decimal digits; fails on any non-digit character. -/
def digitsToNatAux (acc : Nat) : Str → Option Nat
  | [] => some acc
  | c :: cs => if c.isDigit then digitsToNatAux (acc * 10 + (c.toNat - 48)) cs else none

/-- Parse a non-empty all-digit string. -/
def digitsToNat : Str → Option Nat
  | [] => none
  | s => digitsToNatAux 0 s

/-- Model of Rust `i64::from_str` as used by `v.parse::<i64>()`: optional
sign followed by at least one decimal digit (the `i64` range is not
modelled; no claim depends on overflow). -/
def parseInt : Str → Option Int
  | '-' :: rest => (digitsToNat rest).map (fun n => -(n : Int))
  | '+' :: rest => (digitsToNat rest).map (fun n => (n : Int))
  | s => (digitsToNat s).map (fun n => (n : Int))

/-- Decimal rendering of an integer, modelling Rust `i64`'s `Display`
(as used by `format!` and `to_string`). -/
def intToStr (i : Int) : Str :=
  if i < 0 then '-' :: Nat.toDigits 10 i.natAbs else Nat.toDigits 10 i.natAbs

/-- A run of `n` copies of the character `'1'`, describing the suffixes
produced by the name-collision retry loop. -/
def ones (n : Nat) : Str := List.replicate n '1'

/-- Modelled from the spec: the `QueryError` type lives in the
repository's `types` module, which is not among the sources; the spec
says a protocol error carries the numeric status code and message, and
that a response without any status line is the distinguished
"empty response" error.  `code` mirrors the `e.code()` accessor the
engine branches on (non-status errors never match codes 768/771). -/
inductive QueryError
  | status (code : Int) (message : Str)
  | emptyResponse
  | malformedStatus (line : Str)
  | parseField (record : Str)
deriving DecidableEq, Repr

/-- Numeric code carried by an error, mirroring `QueryError::code`. -/
def QueryError.code : QueryError → Int
  | .status c _ => c
  | _ => -1

/-- Modelled from the spec: the status line of a response, `error
id=<code> msg=<text>`, parsed into a numeric code and a message
(`QueryStatus` in the absent `types` module). -/
structure QueryStatus where
  id : Int
  msg : Str
deriving DecidableEq, Repr

/-- Modelled from the spec: `QueryStatus::try_from(&str)` parses a status
line into a code and message; a line that does not carry both fields is a
decode failure. -/
def QueryStatus.tryFrom (line : Str) : Except QueryError QueryStatus :=
  let l := trimStr line
  if (strLit "error ").isPrefixOf l then
    let toks := splitOnChar ' ' (l.drop 6)
    match toks.find? (fun t => (strLit "id=").isPrefixOf t),
          toks.find? (fun t => (strLit "msg=").isPrefixOf t) with
    | some idTok, some msgTok =>
      match parseInt (idTok.drop 3) with
      | some code => .ok ⟨code, msgTok.drop 4⟩
      | none => .error (.malformedStatus line)
    | _, _ => .error (.malformedStatus line)
  else .error (.malformedStatus line)

/-- Modelled from the spec: `QueryStatus::into_result(content)` returns
the response body on success (code 0) and otherwise the protocol error
carrying the code and message. -/
def QueryStatus.into_result (st : QueryStatus) (content : Str) : Except QueryError Str :=
  if st.id = 0 then .ok content else .error (.status st.id st.msg)

/-- The first line whose trimmed form begins with the status prefix
`"error "`; this is the line `SocketConn::decode_status` selects. -/
def firstStatusLine (content : Str) : Option Str :=
  (rustLines content).find? (fun l => (strLit "error ").isPrefixOf (trimStr l))

/-- Embedding of `SocketConn::decode_status` (socketlib.rs:19-33): scan
the lines for the first status line, parse it, and turn code 0 into
success and anything else into an error; no status line at all is the
"empty response" error. -/
def decode_status (content : Str) : Except QueryError Str :=
  match firstStatusLine content with
  | some line =>
    match QueryStatus.tryFrom line with
    | .ok st => st.into_result content
    | .error e => .error e
  | none => .error .emptyResponse

/-- Embedding of `SocketConn::decode_status_with_result`
(socketlib.rs:39-54): after a successful status decode, the first line
not starting with `"error "` (no trimming here, as in the source) is
split on `'|'` and each piece parsed by the record type's
`from_query`; absence of such a line yields `none`. -/
def decode_status_with_result {α : Type} (fromQuery : Str → Except QueryError α)
    (data : Str) : Except QueryError (Option (List α)) :=
  match decode_status data with
  | .error e => .error e
  | .ok content =>
    match (rustLines content).find? (fun l => !((strLit "error ").isPrefixOf l)) with
    | some line =>
      match (splitOnChar '|' line).mapM fromQuery with
      | .ok v => .ok (some v)
      | .error e => .error e
    | none => .ok none

/-- Outcome of an operation that may panic: Rust code reaching `panic!`
or `unreachable!` is modelled by the `panicked` constructor. -/
inductive RunResult (α : Type)
  | ok (v : α)
  | err (e : QueryError)
  | panicked
deriving DecidableEq, Repr

/-- Embedding of `SocketConn::query_operation_non_error`
(socketlib.rs:113-122): propagate decode errors, unwrap a present result
row list, and `panic!` when the successful response carries no result
line (the `ok_or_else(|| panic!(..)).unwrap()` in the source). -/
def query_operation_non_error {α : Type} (fromQuery : Str → Except QueryError α)
    (data : Str) : RunResult (List α) :=
  match decode_status_with_result fromQuery data with
  | .ok (some v) => .ok v
  | .ok none => .panicked
  | .error e => .err e

/-- Modelled from the spec: row parsing splits a record on spaces into
`key=value` tokens; this returns the value of the first token for `key`. -/
def getField (record key : Str) : Option Str :=
  (splitOnChar ' ' record).findSome? (fun tok =>
    if (key ++ ['=']).isPrefixOf tok then some (tok.drop (key.length + 1)) else none)

/-- Session identity: own client id and own database id (`WhoAmI` in the
absent `types` module; fields from the spec's data model). -/
structure WhoAmI where
  client_id : Int
  client_database_id : Int
deriving DecidableEq, Repr

/-- Modelled from the spec: `FromQueryString` for `WhoAmI`; the two
required integer keys must be present, missing required keys are an
error. -/
def WhoAmI.from_query (record : Str) : Except QueryError WhoAmI :=
  match (getField record (strLit "client_id")).bind parseInt,
        (getField record (strLit "client_database_id")).bind parseInt with
  | some a, some b => .ok ⟨a, b⟩
  | _, _ => .error (.parseField record)

/-- One pass of Rust `str::replace(target, rep)` for a single-character
pattern, as used by `SocketConn::escape`. -/
def replaceChar (target : Char) (rep : Str) : Str → Str
  | [] => []
  | c :: cs => (if c = target then rep else [c]) ++ replaceChar target rep cs

/-- Embedding of `SocketConn::escape` (socketlib.rs:142-146): the three
replacements applied in the source's order — backslash first, then
space, then forward slash. -/
def escape (s : Str) : Str :=
  replaceChar '/' ['\\', '/'] (replaceChar ' ' ['\\', 's'] (replaceChar '\\' ['\\', '\\'] s))

/-- Per-character escaping table stated from the spec's words ("replace
backslash → `\\`, space → `\s`, forward slash → `\/`"), used to compare
the source's sequential-replace implementation against the spec. -/
def esc1 (c : Char) : Str :=
  if c = '\\' then ['\\', '\\']
  else if c = ' ' then ['\\', 's']
  else if c = '/' then ['\\', '/']
  else [c]

/-- Character-wise escaping as the spec describes it. -/
def escapeSpec : Str → Str
  | [] => []
  | c :: cs => esc1 c ++ escapeSpec cs

/-- The spec's inverse mapping for unescaping: `\\` → backslash, `\s` →
space, `\/` → forward slash, all other characters kept. -/
def unescape : Str → Str
  | [] => []
  | [c] => [c]
  | c1 :: c2 :: rest =>
    if c1 = '\\' then
      if c2 = '\\' then '\\' :: unescape rest
      else if c2 = 's' then ' ' :: unescape rest
      else if c2 = '/' then '/' :: unescape rest
      else c1 :: unescape (c2 :: rest)
    else c1 :: unescape (c2 :: rest)

/-- Client record as the engine consumes it (fields from the spec's data
model; accessors `client_id`, `client_database_id`, `channel_id`,
`client_type`, `client_nickname` appear in the sources). -/
structure Client where
  client_id : Int
  client_database_id : Int
  channel_id : Int
  client_type : Int
  client_nickname : Str
deriving DecidableEq, Repr

/-- Modelled from the spec: `Client::client_is_user`, used by the
mute-porter policy; client type 0 is a normal user, 1 a query client. -/
def Client.client_is_user (c : Client) : Bool := c.client_type = 0

/-- Detailed per-client info; only the muted flag is consumed
(`is_client_muted` in the absent `types` module, fields from the spec). -/
structure ClientInfo where
  is_client_muted : Bool
deriving DecidableEq, Repr

/-- Result of `clientgetdbidfromuid` (`DatabaseId` in the absent `types`
module). -/
structure DatabaseId where
  client_database_id : Int
deriving DecidableEq, Repr

/-- Server info; only the virtual-server unique identifier is consumed
(for cache-key namespacing). -/
structure ServerInfo where
  virtual_server_unique_identifier : Str
deriving DecidableEq, Repr

/-- Basic client view carried by `AutoChannelEvent::Update`
(`ClientBasicInfo` in the absent `types` module). -/
structure ClientBasicInfo where
  client_id : Int
  channel_id : Int
deriving DecidableEq, Repr

/-- Embedding of `AutoChannelEvent` (auto_channel.rs:15-20). -/
inductive AutoChannelEvent
  | update (view : ClientBasicInfo)
  | deleteChannel (clid : Int) (uid : Str)
  | shouldRefresh
  | terminate
deriving DecidableEq, Repr

/-- What one pass of the wait phase observes: an event from the channel,
a closed channel (`Ok(None)`), or the 30-unit timer expiring. -/
inductive WaitOutcome
  | recvEvent (e : AutoChannelEvent)
  | closed
  | timedOut
deriving DecidableEq, Repr

/-- Mute-porter configuration (spec §4.4; accessors `enable`,
`monitor_channel`, `target_channel`, `check_whitelist` appear in the
sources). -/
structure MutePorter where
  enable : Bool
  monitor_channel : Int
  target_channel : Int
  whitelist : List Int
deriving DecidableEq, Repr

/-- Modelled from the spec: `MutePorter::check_whitelist` tests whether a
database id is whitelisted. -/
def MutePorter.check_whitelist (mp : MutePorter) (dbid : Int) : Bool :=
  dbid ∈ mp.whitelist

/-- Configuration surface the engine reads (spec §6): monitored channel
ids, privilege group, per-monitored-channel extra permissions, the
moved-message template, mute-porter settings, and whether the user-state
map is enabled. -/
structure StaffConfig where
  monitor_channels : List Int
  privilege_group : Int
  channel_permissions : List (Int × List (Int × Int))
  moved_message : Str
  mute_porter : MutePorter
  user_map_enabled : Bool
deriving DecidableEq, Repr

/-- Lookup in the extra-permission map (`channel_permissions.get` in the
source, a hash map modelled as an association list). -/
def lookupPerms (m : List (Int × List (Int × Int))) (ch : Int) : Option (List (Int × Int)) :=
  (m.find? (fun p => p.1 = ch)).map (fun p => p.2)

/-- Embedding of `build_redis_key` (auto_channel.rs:119-124); the scan
phase (auto_channel.rs:245-250) builds its key with the identical format
string inline. -/
def build_redis_key (client_database_id : Int) (server_id : Str) (channel_id : Int) : Str :=
  strLit "ts_autochannel_" ++ intToStr client_database_id ++ ['_'] ++ server_id
    ++ ['_'] ++ intToStr channel_id

/-- Observable side effects of the engine, in execution order.  Query
results are supplied by the environment; the trace records which calls
were issued and with which arguments. -/
inductive Act
  | changeNick
  | whoAmIQ
  | serverInfoQ
  | keepAlive
  | queryClients
  | queryChannels
  | queryClientInfo (clid : Int)
  | resolveUid (uid : Str)
  | create (name : Str) (pid : Int)
  | setChannelGroup (dbid : Int) (cid : Int) (gid : Int)
  | addPerm (cid : Int) (perms : List (Int × Int))
  | move (clid : Int) (cid : Int)
  | kvGet (key : Str)
  | kvSet (key : Str) (v : Str)
  | kvDelete (key : Str)
  | message (clid : Int) (text : Str)
  | logout
deriving DecidableEq, Repr

/-- Response of `create_channel`: `Ok(Some _)` carrying the new channel
id, `Ok(None)` (the `unreachable!()` case in the engine), or an error
with its numeric code. -/
inductive CreateResp
  | okSome (cid : Int)
  | okNone
  | err (code : Int)
deriving DecidableEq, Repr

/-- The external world as the engine sees it: results of session
operations and of the KV store's `get`/`set`/`delete` contract.  Each
call's result is a function of its arguments; error payloads irrelevant
to the engine's branching are `Unit`, except move errors which carry the
code the engine matches on (`some code` is `Err`, `none` is `Ok`). -/
structure Env where
  changeNickname : Except Unit Unit
  whoAmI : Except Unit WhoAmI
  serverInfo : Except Unit ServerInfo
  queryClients : Except Unit (List Client)
  queryChannels : Except Unit Unit
  clientInfo : Int → Except Unit (Option ClientInfo)
  resolveUid : Str → Except Unit DatabaseId
  createChannel : Str → Int → CreateResp
  moveClient : Int → Int → Option Int
  kvGet : Str → Except Unit (Option Str)
  kvSet : Str → Str → Except Unit Unit
  kvDelete : Str → Except Unit Unit
  logout : Except Unit Unit

/-- Embedding of `mute_porter_function` (auto_channel.rs:74-117): for
every human client sitting in the monitor channel and not whitelisted,
fetch its info (failures logged and ignored) and, when muted, attempt to
move it to the target channel (failures logged and ignored).  The only
propagated error is a failed client-list query. -/
def mute_porter_function (env : Env) (mp : MutePorter) : List Act × Except Unit Unit :=
  match env.queryClients with
  | .error _ => ([.queryClients], .error ())
  | .ok clients =>
    (.queryClients :: clients.flatMap (fun client =>
      if client.client_is_user ∧ client.channel_id = mp.monitor_channel
          ∧ ¬ mp.check_whitelist client.client_database_id then
        Act.queryClientInfo client.client_id ::
          (match env.clientInfo client.client_id with
           | .ok (some info) =>
             if info.is_client_muted then [Act.move client.client_id mp.target_channel]
             else []
           | _ => [])
      else []), .ok ())

/-- Result of the name-collision retry loop (auto_channel.rs:263-279). -/
inductive CreateRes
  | accepted (cid : Int)
  | skipClient
  | panicked
deriving DecidableEq, Repr

/-- Embedding of the channel-creation retry loop (auto_channel.rs:263-279):
code 771 appends a literal `'1'` to the name and retries, any other error
skips the client (`continue 'outer`), `Ok(Some _)` breaks with the new
channel id, and `Ok(None)` is `unreachable!()`.  The source loop is
unbounded; the embedding spends one unit of fuel per attempt and returns
`none` when the fuel runs out. -/
def create_loop (env : Env) (pid : Int) : Str → Nat → Option (List Act × CreateRes)
  | _, 0 => none
  | name, Nat.succ fuel =>
    match env.createChannel name pid with
    | .okSome cid => some ([.create name pid], .accepted cid)
    | .okNone => some ([.create name pid], .panicked)
    | .err code =>
      if code = 771 then
        match create_loop env pid (name ++ ['1']) fuel with
        | none => none
        | some (acts, r) => some (.create name pid :: acts, r)
      else some ([.create name pid], .skipClient)

/-- How processing one client ends: go on to the next client (recording
whether the stale-cache branch requested an immediate rescan), abort the
whole session with an error, or panic. -/
inductive ClientOutcome
  | done (skipSleep : Bool)
  | fatal
  | panicked
deriving DecidableEq, Repr

/-- Embedding of the move-and-finish tail of one client's scan step
(auto_channel.rs:315-344): a move failure with code 768 deletes the cache
entry (a KV failure there is fatal) and requests an immediate rescan; any
other move failure just skips the client; a successful move enqueues the
notification and, after a fresh provisioning, moves the engine back out
(fatal on failure) and persists the cache entry (fatal on KV failure). -/
def finishMove (env : Env) (cfg : StaffConfig) (who : WhoAmI) (c : Client)
    (key : Str) (create_new : Bool) (target : Int) : List Act × ClientOutcome :=
  match env.moveClient c.client_id target with
  | some code =>
    if code = 768 then
      match env.kvDelete key with
      | .ok _ => ([.move c.client_id target, .kvDelete key], .done true)
      | .error _ => ([.move c.client_id target, .kvDelete key], .fatal)
    else ([.move c.client_id target], .done false)
  | none =>
    let a0 : List Act := [.move c.client_id target, .message c.client_id cfg.moved_message]
    if create_new then
      match env.moveClient who.client_id c.channel_id with
      | some _ => (a0 ++ [.move who.client_id c.channel_id], .fatal)
      | none =>
        match env.kvSet key (intToStr target) with
        | .ok _ =>
          (a0 ++ [.move who.client_id c.channel_id, .kvSet key (intToStr target)], .done false)
        | .error _ =>
          (a0 ++ [.move who.client_id c.channel_id, .kvSet key (intToStr target)], .fatal)
    else (a0, .done false)

/-- Embedding of one client's scan step (auto_channel.rs:237-344): skip
self, clients outside the monitored set, and query clients; otherwise
read the cache (KV failure fatal; an unparseable stored value is logged
and treated as a miss), provision a channel on a miss (creation retry
loop, then best-effort privilege-group and permission setup), and finish
with the move. -/
def processClient (env : Env) (cfg : StaffConfig) (who : WhoAmI) (suid : Str)
    (c : Client) (fuel : Nat) : Option (List Act × ClientOutcome) :=
  if c.client_database_id = who.client_database_id
      ∨ ¬ c.channel_id ∈ cfg.monitor_channels ∨ c.client_type = 1 then
    some ([], .done false)
  else
    let key := build_redis_key c.client_database_id suid c.channel_id
    match env.kvGet key with
    | .error _ => some ([.kvGet key], .fatal)
    | .ok got =>
      match got.bind parseInt with
      | some target =>
        let m := finishMove env cfg who c key false target
        some (.kvGet key :: m.1, m.2)
      | none =>
        match create_loop env c.channel_id (c.client_nickname ++ strLit "'s channel") fuel with
        | none => none
        | some (cacts, .skipClient) => some (.kvGet key :: cacts, .done false)
        | some (cacts, .panicked) => some (.kvGet key :: cacts, .panicked)
        | some (cacts, .accepted cid) =>
          let pacts : List Act :=
            [.setChannelGroup c.client_database_id cid cfg.privilege_group,
             .addPerm cid [(133, 75)]] ++
            (match lookupPerms cfg.channel_permissions c.channel_id with
             | some perms => [Act.addPerm cid perms]
             | none => [])
          let m := finishMove env cfg who c key true cid
          some (.kvGet key :: (cacts ++ pacts ++ m.1), m.2)

/-- How a whole scan over the client list ends. -/
inductive ScanClientsRes
  | done (skipSleep : Bool)
  | fatal
  | panicked
deriving DecidableEq, Repr

/-- The `'outer` loop over all clients (auto_channel.rs:237): clients are
processed in enumeration order; an immediate-rescan request from any
client is remembered; a fatal error or panic aborts the scan. -/
def scanClients (env : Env) (cfg : StaffConfig) (who : WhoAmI) (suid : Str) :
    List Client → Bool → Nat → Option (List Act × ScanClientsRes)
  | [], ss, _ => some ([], .done ss)
  | c :: cs, ss, fuel =>
    match processClient env cfg who suid c fuel with
    | none => none
    | some (acts, .done s) =>
      match scanClients env cfg who suid cs (ss || s) fuel with
      | none => none
      | some (as2, r) => some (acts ++ as2, r)
    | some (acts, .fatal) => some (acts, .fatal)
    | some (acts, .panicked) => some (acts, .panicked)

/-- How a scan phase ends: continue the loop with new flag values, abort
with a fatal error, or panic. -/
inductive ScanRes
  | cont (sr ss : Bool)
  | fatal
  | panicked
deriving DecidableEq, Repr

/-- Embedding of the scan phase (auto_channel.rs:229-353): a failed
client-list query just continues the loop; otherwise every client is
processed, then — only when the user-state map is enabled — the channel
list is queried (result best-effort) and the refresh flag is cleared.
When the map is disabled the refresh flag survives the scan. -/
def scanPhase (env : Env) (cfg : StaffConfig) (who : WhoAmI) (suid : Str)
    (sr : Bool) (fuel : Nat) : Option (List Act × ScanRes) :=
  match env.queryClients with
  | .error _ => some ([.queryClients], .cont sr false)
  | .ok clients =>
    match scanClients env cfg who suid clients false fuel with
    | none => none
    | some (acts, .fatal) => some (.queryClients :: acts, .fatal)
    | some (acts, .panicked) => some (.queryClients :: acts, .panicked)
    | some (acts, .done ss) =>
      if cfg.user_map_enabled then
        some (.queryClients :: (acts ++ [.queryChannels]), .cont false ss)
      else
        some (.queryClients :: acts, .cont sr ss)

/-- Loop-control state: the refresh flag and the skip-the-next-wait flag
(`should_refresh` and `skip_sleep` in the source). -/
structure LoopState where
  should_refresh : Bool
  skip_sleep : Bool
deriving DecidableEq, Repr

/-- How one loop iteration ends. -/
inductive IterRes
  | toNext (st : LoopState)
  | toBreak
  | fatal
  | panicked
deriving DecidableEq, Repr

/-- Glue a wait-phase action prefix onto the scan phase the iteration
falls through into. -/
def afterWait (env : Env) (cfg : StaffConfig) (who : WhoAmI) (suid : Str)
    (sr : Bool) (pre : List Act) (fuel : Nat) : Option (List Act × IterRes) :=
  match scanPhase env cfg who suid sr fuel with
  | none => none
  | some (acts, .cont sr' ss') => some (pre ++ acts, .toNext ⟨sr', ss'⟩)
  | some (acts, .fatal) => some (pre ++ acts, .fatal)
  | some (acts, .panicked) => some (pre ++ acts, .panicked)

/-- Embedding of one wait-phase dispatch of the engine loop
(auto_channel.rs:163-225) followed by whatever it falls through into:
`Terminate` and a closed channel break; a self `Update` continues; any
other `Update` falls into a scan; `DeleteChannel` resolves the unique id
(fatal on failure), best-effort deletes the cache entry for every
monitored channel, enqueues "Received.", and falls into a scan;
`ShouldRefresh` sets the flag and falls into a scan; a timer expiry
issues the keep-alive, runs the mute porter when enabled (a porter error
is propagated), and scans only when a refresh is pending. -/
def loopIter (env : Env) (cfg : StaffConfig) (who : WhoAmI) (suid : Str)
    (sr : Bool) (w : WaitOutcome) (fuel : Nat) : Option (List Act × IterRes) :=
  match w with
  | .recvEvent .terminate => some ([], .toBreak)
  | .recvEvent (.update view) =>
    if view.client_id = who.client_id then some ([], .toNext ⟨sr, false⟩)
    else afterWait env cfg who suid sr [] fuel
  | .recvEvent (.deleteChannel clid uid) =>
    match env.resolveUid uid with
    | .error _ => some ([.resolveUid uid], .fatal)
    | .ok r =>
      afterWait env cfg who suid sr
        (.resolveUid uid ::
          (cfg.monitor_channels.map
            (fun ch => Act.kvDelete (build_redis_key r.client_database_id suid ch))
          ++ [.message clid (strLit "Received.")])) fuel
  | .recvEvent .shouldRefresh => afterWait env cfg who suid true [] fuel
  | .closed => some ([], .toBreak)
  | .timedOut =>
    if cfg.mute_porter.enable then
      match mute_porter_function env cfg.mute_porter with
      | (pacts, .error _) => some (.keepAlive :: pacts, .fatal)
      | (pacts, .ok _) =>
        if sr then afterWait env cfg who suid sr (.keepAlive :: pacts) fuel
        else some (.keepAlive :: pacts, .toNext ⟨sr, false⟩)
    else
      if sr then afterWait env cfg who suid sr [.keepAlive] fuel
      else some ([.keepAlive], .toNext ⟨sr, false⟩)

/-- How the whole loop exits: a break (Terminate or closed channel), a
propagated fatal error, a panic, or — a model artifact — the scripted
event list running dry while the loop would block waiting. -/
inductive LoopExit
  | brk
  | fatalL
  | panickedL
  | starved
deriving DecidableEq, Repr

/-- Embedding of the engine loop (auto_channel.rs:160-354): when
`skip_sleep` is set the wait phase is skipped entirely (no event is
consumed) and the iteration goes straight to the scan; otherwise the
next scripted wait outcome drives one iteration. -/
def runLoop (env : Env) (cfg : StaffConfig) (who : WhoAmI) (suid : Str) :
    Nat → LoopState → List WaitOutcome → Option (List Act × LoopExit)
  | 0 => fun _ _ => none
  | Nat.succ fuel => fun st events =>
    if st.skip_sleep then
      match scanPhase env cfg who suid st.should_refresh fuel with
      | none => none
      | some (acts, .cont sr ss) =>
        match runLoop env cfg who suid fuel ⟨sr, ss⟩ events with
        | none => none
        | some (as2, ex) => some (acts ++ as2, ex)
      | some (acts, .fatal) => some (acts, .fatalL)
      | some (acts, .panicked) => some (acts, .panickedL)
    else
      match events with
      | [] => some ([], .starved)
      | w :: ws =>
        match loopIter env cfg who suid st.should_refresh w fuel with
        | none => none
        | some (acts, .toNext st') =>
          match runLoop env cfg who suid fuel st' ws with
          | none => none
          | some (as2, ex) => some (acts ++ as2, ex)
        | some (acts, .toBreak) => some (acts, .brk)
        | some (acts, .fatal) => some (acts, .fatalL)
        | some (acts, .panicked) => some (acts, .panickedL)

/-- How `auto_channel_staff` returns: a normal return after the loop
broke (recording whether the final logout failed), an early `Err` return
that bypassed the logout, a panic, or the starvation artifact. -/
inductive StaffExit
  | done (logoutFailed : Bool)
  | earlyErr
  | panickedExit
  | starvedExit
deriving DecidableEq, Repr

/-- Embedding of `auto_channel_staff` (auto_channel.rs:126-357):
bootstrap (nickname change, whoami, server info — each fatal on
failure), then the loop with `should_refresh = false` and `skip_sleep =
true`; only when the loop breaks does control reach `conn.logout()`
after the loop — an early `Err` return propagates without a logout. -/
def auto_channel_staff (env : Env) (cfg : StaffConfig)
    (events : List WaitOutcome) (fuel : Nat) : Option (List Act × StaffExit) :=
  match env.changeNickname with
  | .error _ => some ([.changeNick], .earlyErr)
  | .ok _ =>
    match env.whoAmI with
    | .error _ => some ([.changeNick, .whoAmIQ], .earlyErr)
    | .ok who =>
      match env.serverInfo with
      | .error _ => some ([.changeNick, .whoAmIQ, .serverInfoQ], .earlyErr)
      | .ok sinfo =>
        match runLoop env cfg who sinfo.virtual_server_unique_identifier
            fuel ⟨false, true⟩ events with
        | none => none
        | some (acts, .brk) =>
          some ([Act.changeNick, .whoAmIQ, .serverInfoQ] ++ acts ++ [.logout],
            match env.logout with
            | .ok _ => .done false
            | .error _ => .done true)
        | some (acts, .fatalL) =>
          some ([Act.changeNick, .whoAmIQ, .serverInfoQ] ++ acts, .earlyErr)
        | some (acts, .panickedL) =>
          some ([Act.changeNick, .whoAmIQ, .serverInfoQ] ++ acts, .panickedExit)
        | some (acts, .starved) =>
          some ([Act.changeNick, .whoAmIQ, .serverInfoQ] ++ acts, .starvedExit)

/-- An environment in which every external call succeeds with neutral
values: empty client list, cache misses, channel creation yielding id 50,
moves succeeding; used as the base for concrete scenarios. -/
def baseEnv : Env where
  changeNickname := .ok ()
  whoAmI := .ok ⟨1, 2⟩
  serverInfo := .ok ⟨strLit "sid"⟩
  queryClients := .ok []
  queryChannels := .ok ()
  clientInfo := fun _ => .ok none
  resolveUid := fun _ => .ok ⟨5⟩
  createChannel := fun _ _ => .okSome 50
  moveClient := fun _ _ => none
  kvGet := fun _ => .ok none
  kvSet := fun _ _ => .ok ()
  kvDelete := fun _ => .ok ()
  logout := .ok ()

/-- Concrete configuration: one monitored channel 10, privilege group
99, no extra permissions, mute porter disabled, user-state map
disabled. -/
def cfgA : StaffConfig where
  monitor_channels := [10]
  privilege_group := 99
  channel_permissions := []
  moved_message := strLit "moved"
  mute_porter := ⟨false, 0, 0, []⟩
  user_map_enabled := false

/-- The engine's own identity in the concrete scenarios. -/
def whoA : WhoAmI := ⟨1, 2⟩

/-- The virtual-server unique id in the concrete scenarios. -/
def suidA : Str := strLit "sid"

/-- A normal client sitting in monitored channel 10. -/
def alice : Client := ⟨21, 5, 10, 0, strLit "Alice"⟩

/-- The cache key the scan derives for `alice` in the scenarios. -/
def keyA : Str := build_redis_key 5 suidA 10

/-- The first channel name the provisioning path attempts for `alice`. -/
def nmA : Str := strLit "Alice" ++ strLit "'s channel"

/-- Environment for the provisioning scenario: `alice` is connected and
every call succeeds. -/
def envA : Env := { baseEnv with queryClients := .ok [alice] }

/-- Environment in which unique-id resolution fails, driving the
`DeleteChannel` handler into its fatal path. -/
def envC5 : Env := { baseEnv with resolveUid := fun _ => .error () }

/-- Configuration with the user-state map enabled (refresh flag is
cleared at the end of a scan). -/
def cfgB : StaffConfig := { cfgA with user_map_enabled := true }

/-- Environment in which every channel creation reports the
name-collision code 771. -/
def collideEnv : Env := { baseEnv with createChannel := fun _ _ => .err 771 }

/-- Environment with a populated, parseable cache entry for every key,
and all other calls succeeding. -/
def envHit : Env := { envA with kvGet := fun _ => .ok (some (strLit "50")) }

/-- Cache-hit environment in which moving `alice` fails with the
invalid-channel code 768. -/
def envHit768 : Env :=
  { envHit with moveClient := fun clid _ => if clid = 21 then some 768 else none }

/-- Cache-hit environment in which moving `alice` fails with an
unrelated code 2568. -/
def envHitOther : Env :=
  { envHit with moveClient := fun clid _ => if clid = 21 then some 2568 else none }

/-- Environment in which the KV get itself fails. -/
def envGetErr : Env := { envA with kvGet := fun _ => .error () }

/-- Provisioning environment in which the final KV set fails. -/
def envSetErr : Env := { envA with kvSet := fun _ _ => .error () }

/-- Cache-hit environment in which the move fails with 768 and the
subsequent KV delete also fails. -/
def envDel768Err : Env := { envHit768 with kvDelete := fun _ => .error () }

/-- Environment in which every KV delete fails (exercising the
best-effort deletes of the `DeleteChannel` handler). -/
def envDelErr : Env := { baseEnv with kvDelete := fun _ => .error () }

/-- Termination of the name-collision retry loop against a given
environment: some amount of fuel suffices for `create_loop` to return. -/
def createLoopTerminates (env : Env) (pid : Int) (name : Str) : Prop :=
  ∃ fuel r, create_loop env pid name fuel = some r

/-- Environment in which the first name collides (code 771) and the
mutated name is accepted with channel id 42. -/
def envC6 : Env :=
  { baseEnv with createChannel := fun nm _ => if nm = strLit "a" then .err 771 else .okSome 42 }

/-- The action trace of the provisioning scenario: `alice` is found in
monitored channel 10, the cache misses, a channel is created and set up,
`alice` is moved in, the engine moves itself back, and the cache entry is
persisted; then a Terminate event breaks the loop. -/
def trA : List Act :=
  [Act.queryClients, Act.kvGet keyA, Act.create nmA 10,
   Act.setChannelGroup 5 50 99, Act.addPerm 50 [(133, 75)], Act.move 21 50,
   Act.message 21 (strLit "moved"), Act.move 1 10, Act.kvSet keyA (strLit "50")]

/-- Scoping discipline of a single emitted action relative to a whole
trace: the loop body never logs out; channels are only created under a
monitored parent; cache entries are only written under keys derived from
a monitored channel; permissions (channel permissions and the client's
channel group) are only touched on a channel freshly created — within
the same trace — under a monitored parent. -/
def GoodAct (cfg : StaffConfig) (suid : Str) (env : Env) (acts : List Act) : Act → Prop
  | .logout => False
  | .create _ p => p ∈ cfg.monitor_channels
  | .kvSet k _ => ∃ dbid ch, ch ∈ cfg.monitor_channels ∧ k = build_redis_key dbid suid ch
  | .addPerm cid _ => ∃ nm p, p ∈ cfg.monitor_channels
      ∧ Act.create nm p ∈ acts ∧ env.createChannel nm p = CreateResp.okSome cid
  | .setChannelGroup _ cid _ => ∃ nm p, p ∈ cfg.monitor_channels
      ∧ Act.create nm p ∈ acts ∧ env.createChannel nm p = CreateResp.okSome cid
  | _ => True

/-- Every action of a trace is scoped to the monitored channels. -/
def GoodActs (cfg : StaffConfig) (suid : Str) (env : Env) (acts : List Act) : Prop :=
  ∀ a ∈ acts, GoodAct cfg suid env acts a

theorem replaceChar_append (t : Char) (r a b : Str) :
    replaceChar t r (a ++ b) = replaceChar t r a ++ replaceChar t r b := by
  induction a with
  | nil => simp [replaceChar]
  | cons c cs ih => simp [replaceChar, ih, List.append_assoc]

theorem escape_eq_spec : ∀ s : Str, escape s = escapeSpec s
  | [] => by simp [escape, replaceChar, escapeSpec]
  | c :: cs => by
    have ih := escape_eq_spec cs
    by_cases h1 : c = '\\'
    · subst h1
      simpa [escape, replaceChar, replaceChar_append, escapeSpec, esc1] using ih
    · by_cases h2 : c = ' '
      · subst h2
        simpa [escape, replaceChar, replaceChar_append, escapeSpec, esc1] using ih
      · by_cases h3 : c = '/'
        · subst h3
          simpa [escape, replaceChar, replaceChar_append, escapeSpec, esc1] using ih
        · simpa [escape, replaceChar, replaceChar_append, escapeSpec, esc1, h1, h2, h3] using ih

theorem unescape_cons_ne (c : Char) (h : ¬ c = '\\') :
    ∀ l : Str, unescape (c :: l) = c :: unescape l
  | [] => by simp [unescape]
  | d :: ds => by simp [unescape, h]

theorem unescape_escape : ∀ s : Str, unescape (escape s) = s
  | [] => by simp [escape, replaceChar, unescape]
  | c :: cs => by
    have ih := unescape_escape cs
    rw [escape_eq_spec] at ih ⊢
    show unescape (esc1 c ++ escapeSpec cs) = c :: cs
    by_cases h1 : c = '\\'
    · subst h1; simp [esc1, unescape, ih]
    · by_cases h2 : c = ' '
      · subst h2; simp [esc1, unescape, ih]
      · by_cases h3 : c = '/'
        · subst h3; simp [esc1, unescape, ih]
        · simp only [esc1, h1, h2, h3, if_false, List.singleton_append]
          rw [unescape_cons_ne c h1, ih]

/-- C1: for every raw response string given to status decoding, if the
status line (the first line beginning with the status prefix) carries
code 0 then decoding succeeds and yields no propagated error; if it
carries a nonzero code then decoding yields exactly the one error
carrying that numeric code and message; and if no line begins with the
status prefix then decoding fails with the "empty response" error. -/
theorem c1_status_decoding (content : Str) :
    (∀ line m, firstStatusLine content = some line →
      QueryStatus.tryFrom line = .ok ⟨0, m⟩ →
      decode_status content = .ok content)
    ∧ (∀ line c m, firstStatusLine content = some line →
      QueryStatus.tryFrom line = .ok ⟨c, m⟩ → c ≠ 0 →
      decode_status content = .error (.status c m))
    ∧ (firstStatusLine content = none →
      decode_status content = .error .emptyResponse) := by
  refine ⟨?_, ?_, ?_⟩
  · intro line m h1 h2
    simp [decode_status, h1, h2, QueryStatus.into_result]
  · intro line c m h1 h2 hc
    simp [decode_status, h1, h2, QueryStatus.into_result, hc]
  · intro h1
    simp [decode_status, h1]

/-- Witness for C1: a concrete success response decodes successfully. -/
theorem c1_status_decoding_witness :
    decode_status (strLit "error id=0 msg=ok") = .ok (strLit "error id=0 msg=ok") :=
  (c1_status_decoding (strLit "error id=0 msg=ok")).1
    (strLit "error id=0 msg=ok") (strLit "ok") (by decide) (by decide)

/-- C2: the escape function is total and performs exactly the spec's
three character substitutions in order, and for every string over the
backslash/space/slash alphabet the inverse mapping recovers the
original string. -/
theorem c2_escape_roundtrip (s : Str) :
    escape s = escapeSpec s
    ∧ ((∀ c ∈ s, c = '\\' ∨ c = ' ' ∨ c = '/') → unescape (escape s) = s) :=
  ⟨escape_eq_spec s, fun _ => unescape_escape s⟩

/-- Witness for C2: round trip on the concrete string made of one
backslash, one space, and one slash. -/
theorem c2_escape_roundtrip_witness :
    unescape (escape ['\\', ' ', '/']) = ['\\', ' ', '/'] :=
  (c2_escape_roundtrip ['\\', ' ', '/']).2 (by decide)

/-- Counterexample for C9: the response `error id=0 msg=ok` decodes as a
success (code 0) yet carries no data line, and the non-error query
operation panics on it instead of returning a typed value or error. -/
theorem c9_counterexample :
    query_operation_non_error WhoAmI.from_query (strLit "error id=0 msg=ok")
        = RunResult.panicked
      ∧ decode_status (strLit "error id=0 msg=ok")
        = .ok (strLit "error id=0 msg=ok") := by
  constructor
  · decide
  · decide

/-- C9 (amended): for every response whose status decodes as success and
whose body contains at least one line not starting with the status
prefix, the non-error query operation returns a typed value or a typed
error and never panics; when the successful body has no such data line
the operation panics. -/
theorem c9_non_error_no_panic {α : Type} (fromQuery : Str → Except QueryError α)
    (data content : Str)
    (hdec : decode_status data = .ok content)
    (hline : (rustLines content).any (fun l => !((strLit "error ").isPrefixOf l)) = true) :
    query_operation_non_error fromQuery data ≠ RunResult.panicked := by
  have hfind : ((rustLines content).find?
      (fun l => !((strLit "error ").isPrefixOf l))).isSome := by
    rcases List.any_eq_true.mp hline with ⟨l, hl, hp⟩
    exact List.find?_isSome.mpr ⟨l, hl, hp⟩
  rcases Option.isSome_iff_exists.mp hfind with ⟨line, hline'⟩
  unfold query_operation_non_error decode_status_with_result
  rw [hdec]
  dsimp only
  rw [hline']
  dsimp only
  cases hm : List.mapM.loop fromQuery (splitOnChar '|' line) [] <;> simp [hm]

/-- Witness for C9 (amended): a concrete response with a data line does
not panic. -/
theorem c9_non_error_no_panic_witness :
    query_operation_non_error WhoAmI.from_query (strLit "x\nerror id=0 msg=ok")
      ≠ RunResult.panicked :=
  c9_non_error_no_panic WhoAmI.from_query (strLit "x\nerror id=0 msg=ok")
    (strLit "x\nerror id=0 msg=ok") (by decide) (by decide)

theorem goodActs_nil (cfg : StaffConfig) (suid : Str) (env : Env) :
    GoodActs cfg suid env [] := by
  intro a ha
  simp at ha

theorem goodAct_mono {cfg : StaffConfig} {suid : Str} {env : Env}
    {acts acts' : List Act} (hsub : ∀ x, x ∈ acts → x ∈ acts') {a : Act}
    (h : GoodAct cfg suid env acts a) : GoodAct cfg suid env acts' a := by
  cases a with
  | addPerm cid ps =>
    rcases h with ⟨nm, p, h1, h2, h3⟩
    exact ⟨nm, p, h1, hsub _ h2, h3⟩
  | setChannelGroup d cid g =>
    rcases h with ⟨nm, p, h1, h2, h3⟩
    exact ⟨nm, p, h1, hsub _ h2, h3⟩
  | _ => exact h

theorem goodActs_append {cfg : StaffConfig} {suid : Str} {env : Env}
    {xs ys : List Act} (hx : GoodActs cfg suid env xs)
    (hy : GoodActs cfg suid env ys) : GoodActs cfg suid env (xs ++ ys) := by
  intro a ha
  rcases List.mem_append.mp ha with h | h
  · exact goodAct_mono (fun x hx' => List.mem_append_left _ hx') (hx a h)
  · exact goodAct_mono (fun x hx' => List.mem_append_right _ hx') (hy a h)

theorem create_loop_acts (env : Env) (pid : Int) :
    ∀ (fuel : Nat) (name : Str) (cacts : List Act) (r : CreateRes),
      create_loop env pid name fuel = some (cacts, r) →
      (∀ a ∈ cacts, ∃ nm, a = Act.create nm pid)
      ∧ (∀ cid, r = .accepted cid →
          ∃ nm, Act.create nm pid ∈ cacts
            ∧ env.createChannel nm pid = CreateResp.okSome cid) := by
  intro fuel
  induction fuel with
  | zero => intro name cacts r h; simp [create_loop] at h
  | succ n ih =>
    intro name cacts r h
    unfold create_loop at h
    cases hc : env.createChannel name pid with
    | okSome cid =>
      rw [hc] at h
      simp only [Option.some.injEq, Prod.mk.injEq] at h
      rcases h with ⟨rfl, rfl⟩
      refine ⟨?_, ?_⟩
      · intro a ha; simp at ha; exact ⟨name, ha⟩
      · intro cid' hcid
        cases hcid
        exact ⟨name, by simp, hc⟩
    | okNone =>
      rw [hc] at h
      simp only [Option.some.injEq, Prod.mk.injEq] at h
      rcases h with ⟨rfl, rfl⟩
      refine ⟨?_, ?_⟩
      · intro a ha; simp at ha; exact ⟨name, ha⟩
      · intro cid' hcid; cases hcid
    | err code =>
      rw [hc] at h
      dsimp only at h
      by_cases h771 : code = 771
      · rw [if_pos h771] at h
        cases hrec : create_loop env pid (name ++ ['1']) n with
        | none => rw [hrec] at h; cases h
        | some pr =>
          rw [hrec] at h
          rcases pr with ⟨acts0, r0⟩
          simp only [Option.some.injEq, Prod.mk.injEq] at h
          rcases h with ⟨rfl, rfl⟩
          rcases ih (name ++ ['1']) acts0 r0 hrec with ⟨ha, hr⟩
          refine ⟨?_, ?_⟩
          · intro a ha'
            rcases List.mem_cons.mp ha' with rfl | hmem
            · exact ⟨name, rfl⟩
            · exact ha a hmem
          · intro cid hcid
            rcases hr cid hcid with ⟨nm, hmem, hok⟩
            exact ⟨nm, List.mem_cons_of_mem _ hmem, hok⟩
      · rw [if_neg h771] at h
        simp only [Option.some.injEq, Prod.mk.injEq] at h
        rcases h with ⟨rfl, rfl⟩
        refine ⟨?_, ?_⟩
        · intro a ha; simp at ha; exact ⟨name, ha⟩
        · intro cid' hcid; cases hcid

theorem finishMove_acts (env : Env) (cfg : StaffConfig) (who : WhoAmI)
    (c : Client) (key : Str) (cn : Bool) (target : Int) :
    ∀ a ∈ (finishMove env cfg who c key cn target).1,
      (∃ i t, a = Act.move i t) ∨ (∃ i m, a = Act.message i m)
      ∨ a = Act.kvDelete key ∨ (∃ v, a = Act.kvSet key v) := by
  intro a ha
  unfold finishMove at ha
  cases hm : env.moveClient c.client_id target with
  | some code =>
    rw [hm] at ha
    dsimp only at ha
    by_cases h768 : code = 768
    · rw [if_pos h768] at ha
      cases hd : env.kvDelete key with
      | ok u => rw [hd] at ha; simp at ha
                rcases ha with rfl | rfl
                · exact Or.inl ⟨_, _, rfl⟩
                · exact Or.inr (Or.inr (Or.inl rfl))
      | error u => rw [hd] at ha; simp at ha
                   rcases ha with rfl | rfl
                   · exact Or.inl ⟨_, _, rfl⟩
                   · exact Or.inr (Or.inr (Or.inl rfl))
    · rw [if_neg h768] at ha
      simp at ha
      subst ha
      exact Or.inl ⟨_, _, rfl⟩
  | none =>
    rw [hm] at ha
    dsimp only at ha
    by_cases hcn : cn = true
    · rw [if_pos hcn] at ha
      cases hm2 : env.moveClient who.client_id c.channel_id with
      | some code2 =>
        rw [hm2] at ha
        simp at ha
        rcases ha with rfl | rfl | rfl
        · exact Or.inl ⟨_, _, rfl⟩
        · exact Or.inr (Or.inl ⟨_, _, rfl⟩)
        · exact Or.inl ⟨_, _, rfl⟩
      | none =>
        rw [hm2] at ha
        cases hs : env.kvSet key (intToStr target) with
        | ok u =>
          rw [hs] at ha
          simp at ha
          rcases ha with rfl | rfl | rfl | rfl
          · exact Or.inl ⟨_, _, rfl⟩
          · exact Or.inr (Or.inl ⟨_, _, rfl⟩)
          · exact Or.inl ⟨_, _, rfl⟩
          · exact Or.inr (Or.inr (Or.inr ⟨_, rfl⟩))
        | error u =>
          rw [hs] at ha
          simp at ha
          rcases ha with rfl | rfl | rfl | rfl
          · exact Or.inl ⟨_, _, rfl⟩
          · exact Or.inr (Or.inl ⟨_, _, rfl⟩)
          · exact Or.inl ⟨_, _, rfl⟩
          · exact Or.inr (Or.inr (Or.inr ⟨_, rfl⟩))
    · rw [if_neg hcn] at ha
      simp at ha
      rcases ha with rfl | rfl
      · exact Or.inl ⟨_, _, rfl⟩
      · exact Or.inr (Or.inl ⟨_, _, rfl⟩)

theorem finishMove_good (env : Env) (cfg : StaffConfig) (who : WhoAmI)
    (suid : Str) (c : Client) (key : Str) (cn : Bool) (target : Int)
    (hkey : ∃ dbid ch, ch ∈ cfg.monitor_channels ∧ key = build_redis_key dbid suid ch)
    (acts' : List Act) :
    ∀ a ∈ (finishMove env cfg who c key cn target).1, GoodAct cfg suid env acts' a := by
  intro a ha
  rcases finishMove_acts env cfg who c key cn target a ha with
    ⟨i, t, rfl⟩ | ⟨i, m, rfl⟩ | rfl | ⟨v, rfl⟩
  · simp [GoodAct]
  · simp [GoodAct]
  · simp [GoodAct]
  · simpa [GoodAct] using hkey

theorem processClient_good (env : Env) (cfg : StaffConfig) (who : WhoAmI)
    (suid : Str) (c : Client) (fuel : Nat) (acts : List Act) (out : ClientOutcome)
    (h : processClient env cfg who suid c fuel = some (acts, out)) :
    GoodActs cfg suid env acts := by
  unfold processClient at h
  by_cases hfil : (c.client_database_id = who.client_database_id
      ∨ ¬ c.channel_id ∈ cfg.monitor_channels ∨ c.client_type = 1)
  · rw [if_pos hfil] at h
    simp only [Option.some.injEq, Prod.mk.injEq] at h
    rcases h with ⟨rfl, rfl⟩
    exact goodActs_nil cfg suid env
  · rw [if_neg hfil] at h
    push_neg at hfil
    obtain ⟨hdb, hch, hty⟩ := hfil
    dsimp only at h
    cases hg : env.kvGet (build_redis_key c.client_database_id suid c.channel_id) with
    | error u =>
      rw [hg] at h
      dsimp only at h
      simp only [Option.some.injEq, Prod.mk.injEq] at h
      rcases h with ⟨rfl, rfl⟩
      intro a ha
      simp only [List.mem_singleton] at ha
      subst ha
      simp [GoodAct]
    | ok got =>
      rw [hg] at h
      dsimp only at h
      cases hp : got.bind parseInt with
      | some target =>
        rw [hp] at h
        dsimp only at h
        simp only [Option.some.injEq, Prod.mk.injEq] at h
        rcases h with ⟨rfl, rfl⟩
        intro a ha
        rcases List.mem_cons.mp ha with rfl | hmem
        · simp [GoodAct]
        · exact finishMove_good env cfg who suid c _ false target
            ⟨c.client_database_id, c.channel_id, hch, rfl⟩ _ a hmem
      | none =>
        rw [hp] at h
        dsimp only at h
        cases hcl : create_loop env c.channel_id (c.client_nickname ++ strLit "'s channel") fuel with
        | none => rw [hcl] at h; cases h
        | some pr =>
          rw [hcl] at h
          rcases pr with ⟨cacts, r⟩
          obtain ⟨hcacts, hacc⟩ :=
            create_loop_acts env c.channel_id fuel _ cacts r hcl
          cases r with
          | skipClient =>
            dsimp only at h
            simp only [Option.some.injEq, Prod.mk.injEq] at h
            rcases h with ⟨rfl, rfl⟩
            intro a ha
            rcases List.mem_cons.mp ha with rfl | hmem
            · simp [GoodAct]
            · rcases hcacts a hmem with ⟨nm, rfl⟩
              simpa [GoodAct] using hch
          | panicked =>
            dsimp only at h
            simp only [Option.some.injEq, Prod.mk.injEq] at h
            rcases h with ⟨rfl, rfl⟩
            intro a ha
            rcases List.mem_cons.mp ha with rfl | hmem
            · simp [GoodAct]
            · rcases hcacts a hmem with ⟨nm, rfl⟩
              simpa [GoodAct] using hch
          | accepted cid =>
            dsimp only at h
            simp only [Option.some.injEq, Prod.mk.injEq] at h
            rcases h with ⟨rfl, rfl⟩
            obtain ⟨nm0, hnm0mem, hnm0ok⟩ := hacc cid rfl
            intro a ha
            rcases List.mem_cons.mp ha with rfl | hmem
            · simp [GoodAct]
            · rcases List.mem_append.mp hmem with hmemL | hmem4
              · rcases List.mem_append.mp hmemL with hmem1 | hmem3
                · rcases hcacts a hmem1 with ⟨nm, rfl⟩
                  simpa [GoodAct] using hch
                · rcases List.mem_append.mp hmem3 with hmem5 | hmem6
                  · simp only [List.mem_cons, List.not_mem_nil, or_false] at hmem5
                    rcases hmem5 with rfl | rfl
                    · refine ⟨nm0, c.channel_id, hch, ?_, hnm0ok⟩
                      simp only [List.mem_cons, List.mem_append]
                      exact Or.inr (Or.inl (Or.inl hnm0mem))
                    · refine ⟨nm0, c.channel_id, hch, ?_, hnm0ok⟩
                      simp only [List.mem_cons, List.mem_append]
                      exact Or.inr (Or.inl (Or.inl hnm0mem))
                  · have hperm : ∃ ps, a = Act.addPerm cid ps := by
                      cases hlp : lookupPerms cfg.channel_permissions c.channel_id with
                      | some perms =>
                        rw [hlp] at hmem6
                        simp only [List.mem_singleton] at hmem6
                        exact ⟨perms, hmem6⟩
                      | none =>
                        rw [hlp] at hmem6
                        simp at hmem6
                    rcases hperm with ⟨ps, rfl⟩
                    refine ⟨nm0, c.channel_id, hch, ?_, hnm0ok⟩
                    simp only [List.mem_cons, List.mem_append]
                    exact Or.inr (Or.inl (Or.inl hnm0mem))
              · exact finishMove_good env cfg who suid c _ true cid
                    ⟨c.client_database_id, c.channel_id, hch, rfl⟩ _ a hmem4

theorem mute_porter_acts (env : Env) (mp : MutePorter) :
    ∀ a ∈ (mute_porter_function env mp).1,
      a = Act.queryClients ∨ (∃ i, a = Act.queryClientInfo i)
      ∨ (∃ i t, a = Act.move i t) := by
  intro a ha
  unfold mute_porter_function at ha
  cases hq : env.queryClients with
  | error u =>
    rw [hq] at ha
    simp only [List.mem_singleton] at ha
    subst ha
    exact Or.inl rfl
  | ok clients =>
    rw [hq] at ha
    dsimp only at ha
    rcases List.mem_cons.mp ha with rfl | hmem
    · exact Or.inl rfl
    · rcases List.mem_flatMap.mp hmem with ⟨cl, hcl, hacl⟩
      by_cases hcond : (cl.client_is_user = true ∧ cl.channel_id = mp.monitor_channel
          ∧ ¬ mp.check_whitelist cl.client_database_id = true)
      · rw [if_pos hcond] at hacl
        rcases List.mem_cons.mp hacl with rfl | h2
        · exact Or.inr (Or.inl ⟨_, rfl⟩)
        · cases hci : env.clientInfo cl.client_id with
          | ok oinfo =>
            cases oinfo with
            | some info =>
              rw [hci] at h2
              dsimp only at h2
              by_cases hmut : info.is_client_muted = true
              · rw [if_pos hmut] at h2
                simp only [List.mem_singleton] at h2
                subst h2
                exact Or.inr (Or.inr ⟨_, _, rfl⟩)
              · rw [if_neg hmut] at h2
                simp at h2
            | none =>
              rw [hci] at h2
              simp at h2
          | error u =>
            rw [hci] at h2
            simp at h2
      · rw [if_neg hcond] at hacl
        simp at hacl

theorem mute_porter_good (cfg : StaffConfig) (suid : Str) (env : Env)
    (mp : MutePorter) (acts' : List Act) :
    ∀ a ∈ (mute_porter_function env mp).1, GoodAct cfg suid env acts' a := by
  intro a ha
  rcases mute_porter_acts env mp a ha with rfl | ⟨i, rfl⟩ | ⟨i, t, rfl⟩
  · simp [GoodAct]
  · simp [GoodAct]
  · simp [GoodAct]

theorem scanClients_good (env : Env) (cfg : StaffConfig) (who : WhoAmI) (suid : Str) :
    ∀ (cs : List Client) (ss : Bool) (fuel : Nat) (acts : List Act) (r : ScanClientsRes),
      scanClients env cfg who suid cs ss fuel = some (acts, r) →
      GoodActs cfg suid env acts := by
  intro cs
  induction cs with
  | nil =>
    intro ss fuel acts r h
    unfold scanClients at h
    simp only [Option.some.injEq, Prod.mk.injEq] at h
    rcases h with ⟨rfl, rfl⟩
    exact goodActs_nil cfg suid env
  | cons c cs ih =>
    intro ss fuel acts r h
    unfold scanClients at h
    cases hp : processClient env cfg who suid c fuel with
    | none => rw [hp] at h; cases h
    | some pr =>
      rw [hp] at h
      rcases pr with ⟨acts1, oc⟩
      cases oc with
      | done s =>
        dsimp only at h
        cases hs : scanClients env cfg who suid cs (ss || s) fuel with
        | none => rw [hs] at h; cases h
        | some pr2 =>
          rw [hs] at h
          rcases pr2 with ⟨as2, r2⟩
          dsimp only at h
          simp only [Option.some.injEq, Prod.mk.injEq] at h
          rcases h with ⟨rfl, rfl⟩
          exact goodActs_append (processClient_good env cfg who suid c fuel acts1 _ hp)
            (ih _ _ _ _ hs)
      | fatal =>
        dsimp only at h
        simp only [Option.some.injEq, Prod.mk.injEq] at h
        rcases h with ⟨rfl, rfl⟩
        exact processClient_good env cfg who suid c fuel acts1 _ hp
      | panicked =>
        dsimp only at h
        simp only [Option.some.injEq, Prod.mk.injEq] at h
        rcases h with ⟨rfl, rfl⟩
        exact processClient_good env cfg who suid c fuel acts1 _ hp

theorem scanPhase_good (env : Env) (cfg : StaffConfig) (who : WhoAmI) (suid : Str)
    (sr : Bool) (fuel : Nat) (acts : List Act) (r : ScanRes)
    (h : scanPhase env cfg who suid sr fuel = some (acts, r)) :
    GoodActs cfg suid env acts := by
  unfold scanPhase at h
  cases hq : env.queryClients with
  | error u =>
    rw [hq] at h
    simp only [Option.some.injEq, Prod.mk.injEq] at h
    rcases h with ⟨rfl, rfl⟩
    intro a ha
    simp only [List.mem_singleton] at ha
    subst ha
    simp [GoodAct]
  | ok clients =>
    rw [hq] at h
    dsimp only at h
    cases hs : scanClients env cfg who suid clients false fuel with
    | none => rw [hs] at h; cases h
    | some pr =>
      rw [hs] at h
      rcases pr with ⟨acts1, r1⟩
      have hg1 := scanClients_good env cfg who suid clients false fuel acts1 r1 hs
      cases r1 with
      | fatal =>
        dsimp only at h
        simp only [Option.some.injEq, Prod.mk.injEq] at h
        rcases h with ⟨rfl, rfl⟩
        intro a ha
        rcases List.mem_cons.mp ha with rfl | hmem
        · simp [GoodAct]
        · exact goodAct_mono (fun x hx => List.mem_cons_of_mem _ hx) (hg1 a hmem)
      | panicked =>
        dsimp only at h
        simp only [Option.some.injEq, Prod.mk.injEq] at h
        rcases h with ⟨rfl, rfl⟩
        intro a ha
        rcases List.mem_cons.mp ha with rfl | hmem
        · simp [GoodAct]
        · exact goodAct_mono (fun x hx => List.mem_cons_of_mem _ hx) (hg1 a hmem)
      | done ss =>
        dsimp only at h
        by_cases hum : cfg.user_map_enabled = true
        · rw [if_pos hum] at h
          simp only [Option.some.injEq, Prod.mk.injEq] at h
          rcases h with ⟨rfl, rfl⟩
          intro a ha
          rcases List.mem_cons.mp ha with rfl | hmem
          · simp [GoodAct]
          · rcases List.mem_append.mp hmem with hm1 | hm2
            · exact goodAct_mono
                (fun x hx => List.mem_cons_of_mem _ (List.mem_append_left _ hx)) (hg1 a hm1)
            · simp only [List.mem_singleton] at hm2
              subst hm2
              simp [GoodAct]
        · rw [if_neg hum] at h
          simp only [Option.some.injEq, Prod.mk.injEq] at h
          rcases h with ⟨rfl, rfl⟩
          intro a ha
          rcases List.mem_cons.mp ha with rfl | hmem
          · simp [GoodAct]
          · exact goodAct_mono (fun x hx => List.mem_cons_of_mem _ hx) (hg1 a hmem)

theorem afterWait_good (env : Env) (cfg : StaffConfig) (who : WhoAmI) (suid : Str)
    (sr : Bool) (pre : List Act) (fuel : Nat) (acts : List Act) (r : IterRes)
    (hpre : ∀ a ∈ pre, GoodAct cfg suid env pre a)
    (h : afterWait env cfg who suid sr pre fuel = some (acts, r)) :
    GoodActs cfg suid env acts := by
  unfold afterWait at h
  cases hs : scanPhase env cfg who suid sr fuel with
  | none => rw [hs] at h; cases h
  | some pr2 =>
    rw [hs] at h
    rcases pr2 with ⟨acts1, r1⟩
    have hg1 := scanPhase_good env cfg who suid sr fuel acts1 r1 hs
    cases r1 with
    | cont sr' ss' =>
      dsimp only at h
      simp only [Option.some.injEq, Prod.mk.injEq] at h
      rcases h with ⟨rfl, rfl⟩
      exact goodActs_append hpre hg1
    | fatal =>
      dsimp only at h
      simp only [Option.some.injEq, Prod.mk.injEq] at h
      rcases h with ⟨rfl, rfl⟩
      exact goodActs_append hpre hg1
    | panicked =>
      dsimp only at h
      simp only [Option.some.injEq, Prod.mk.injEq] at h
      rcases h with ⟨rfl, rfl⟩
      exact goodActs_append hpre hg1

theorem loopIter_good (env : Env) (cfg : StaffConfig) (who : WhoAmI) (suid : Str)
    (sr : Bool) (w : WaitOutcome) (fuel : Nat) (acts : List Act) (r : IterRes)
    (h : loopIter env cfg who suid sr w fuel = some (acts, r)) :
    GoodActs cfg suid env acts := by
  unfold loopIter at h
  cases w with
  | closed =>
    simp only [Option.some.injEq, Prod.mk.injEq] at h
    rcases h with ⟨rfl, rfl⟩
    exact goodActs_nil cfg suid env
  | timedOut =>
    dsimp only at h
    by_cases hmp : cfg.mute_porter.enable = true
    · rw [if_pos hmp] at h
      cases hpf : mute_porter_function env cfg.mute_porter with
      | mk pacts pres =>
        rw [hpf] at h
        have hpg : ∀ a ∈ Act.keepAlive :: pacts,
            GoodAct cfg suid env (Act.keepAlive :: pacts) a := by
          intro a ha
          rcases List.mem_cons.mp ha with rfl | hmem
          · simp [GoodAct]
          · have := mute_porter_good cfg suid env cfg.mute_porter
              (Act.keepAlive :: pacts) a
            rw [hpf] at this
            exact this hmem
        cases pres with
        | error u =>
          dsimp only at h
          simp only [Option.some.injEq, Prod.mk.injEq] at h
          rcases h with ⟨rfl, rfl⟩
          exact hpg
        | ok u =>
          dsimp only at h
          by_cases hsr : sr = true
          · rw [if_pos hsr] at h
            exact afterWait_good env cfg who suid sr _ fuel acts r hpg h
          · rw [if_neg hsr] at h
            simp only [Option.some.injEq, Prod.mk.injEq] at h
            rcases h with ⟨rfl, rfl⟩
            exact hpg
    · rw [if_neg hmp] at h
      by_cases hsr : sr = true
      · rw [if_pos hsr] at h
        refine afterWait_good env cfg who suid sr _ fuel acts r ?_ h
        intro a ha
        simp only [List.mem_singleton] at ha
        subst ha
        simp [GoodAct]
      · rw [if_neg hsr] at h
        simp only [Option.some.injEq, Prod.mk.injEq] at h
        rcases h with ⟨rfl, rfl⟩
        intro a ha
        simp only [List.mem_singleton] at ha
        subst ha
        simp [GoodAct]
  | recvEvent e =>
    cases e with
    | terminate =>
      simp only [Option.some.injEq, Prod.mk.injEq] at h
      rcases h with ⟨rfl, rfl⟩
      exact goodActs_nil cfg suid env
    | shouldRefresh =>
      dsimp only at h
      refine afterWait_good env cfg who suid true [] fuel acts r ?_ h
      intro a ha
      simp at ha
    | update view =>
      dsimp only at h
      by_cases hv : view.client_id = who.client_id
      · rw [if_pos hv] at h
        simp only [Option.some.injEq, Prod.mk.injEq] at h
        rcases h with ⟨rfl, rfl⟩
        exact goodActs_nil cfg suid env
      · rw [if_neg hv] at h
        refine afterWait_good env cfg who suid sr [] fuel acts r ?_ h
        intro a ha
        simp at ha
    | deleteChannel clid uid =>
      dsimp only at h
      cases hr : env.resolveUid uid with
      | error u =>
        rw [hr] at h
        dsimp only at h
        simp only [Option.some.injEq, Prod.mk.injEq] at h
        rcases h with ⟨rfl, rfl⟩
        intro a ha
        simp only [List.mem_singleton] at ha
        subst ha
        simp [GoodAct]
      | ok dres =>
        rw [hr] at h
        dsimp only at h
        refine afterWait_good env cfg who suid sr _ fuel acts r ?_ h
        intro a ha
        rcases List.mem_cons.mp ha with rfl | hmem
        · simp [GoodAct]
        · rcases List.mem_append.mp hmem with hm1 | hm2
          · rcases List.mem_map.mp hm1 with ⟨ch, hch, rfl⟩
            simp [GoodAct]
          · simp only [List.mem_singleton] at hm2
            subst hm2
            simp [GoodAct]

theorem runLoop_good (env : Env) (cfg : StaffConfig) (who : WhoAmI) (suid : Str) :
    ∀ (fuel : Nat) (st : LoopState) (events : List WaitOutcome)
      (acts : List Act) (ex : LoopExit),
      runLoop env cfg who suid fuel st events = some (acts, ex) →
      GoodActs cfg suid env acts := by
  intro fuel
  induction fuel with
  | zero => intro st events acts ex h; simp [runLoop] at h
  | succ n ih =>
    intro st events acts ex h
    unfold runLoop at h
    by_cases hss : st.skip_sleep = true
    · rw [if_pos hss] at h
      cases hs : scanPhase env cfg who suid st.should_refresh n with
      | none => rw [hs] at h; cases h
      | some pr =>
        rw [hs] at h
        rcases pr with ⟨acts1, r1⟩
        have hg1 := scanPhase_good env cfg who suid st.should_refresh n acts1 r1 hs
        cases r1 with
        | cont sr ss =>
          dsimp only at h
          cases hrec : runLoop env cfg who suid n ⟨sr, ss⟩ events with
          | none => rw [hrec] at h; cases h
          | some pr2 =>
            rw [hrec] at h
            rcases pr2 with ⟨as2, ex2⟩
            dsimp only at h
            simp only [Option.some.injEq, Prod.mk.injEq] at h
            rcases h with ⟨rfl, rfl⟩
            exact goodActs_append hg1 (ih _ _ _ _ hrec)
        | fatal =>
          dsimp only at h
          simp only [Option.some.injEq, Prod.mk.injEq] at h
          rcases h with ⟨rfl, rfl⟩
          exact hg1
        | panicked =>
          dsimp only at h
          simp only [Option.some.injEq, Prod.mk.injEq] at h
          rcases h with ⟨rfl, rfl⟩
          exact hg1
    · rw [if_neg hss] at h
      cases events with
      | nil =>
        simp only [Option.some.injEq, Prod.mk.injEq] at h
        rcases h with ⟨rfl, rfl⟩
        exact goodActs_nil cfg suid env
      | cons w ws =>
        dsimp only at h
        cases hi : loopIter env cfg who suid st.should_refresh w n with
        | none => rw [hi] at h; cases h
        | some pr =>
          rw [hi] at h
          rcases pr with ⟨acts1, r1⟩
          have hg1 := loopIter_good env cfg who suid st.should_refresh w n acts1 r1 hi
          cases r1 with
          | toNext st' =>
            dsimp only at h
            cases hrec : runLoop env cfg who suid n st' ws with
            | none => rw [hrec] at h; cases h
            | some pr2 =>
              rw [hrec] at h
              rcases pr2 with ⟨as2, ex2⟩
              dsimp only at h
              simp only [Option.some.injEq, Prod.mk.injEq] at h
              rcases h with ⟨rfl, rfl⟩
              exact goodActs_append hg1 (ih _ _ _ _ hrec)
          | toBreak =>
            dsimp only at h
            simp only [Option.some.injEq, Prod.mk.injEq] at h
            rcases h with ⟨rfl, rfl⟩
            exact hg1
          | fatal =>
            dsimp only at h
            simp only [Option.some.injEq, Prod.mk.injEq] at h
            rcases h with ⟨rfl, rfl⟩
            exact hg1
          | panicked =>
            dsimp only at h
            simp only [Option.some.injEq, Prod.mk.injEq] at h
            rcases h with ⟨rfl, rfl⟩
            exact hg1

theorem goodActs_no_logout {cfg : StaffConfig} {suid : Str} {env : Env}
    {acts : List Act} (h : GoodActs cfg suid env acts) : Act.logout ∉ acts := by
  intro hm
  have := h _ hm
  simp [GoodAct] at this

theorem finishMove_move_mem (env : Env) (cfg : StaffConfig) (who : WhoAmI)
    (c : Client) (key : Str) (cn : Bool) (target : Int) :
    Act.move c.client_id target ∈ (finishMove env cfg who c key cn target).1 := by
  unfold finishMove
  cases hm : env.moveClient c.client_id target with
  | some code =>
    dsimp only
    by_cases h768 : code = 768
    · rw [if_pos h768]
      cases env.kvDelete key <;> simp
    · rw [if_neg h768]
      simp
  | none =>
    dsimp only
    by_cases hcn : cn = true
    · rw [if_pos hcn]
      cases env.moveClient who.client_id c.channel_id with
      | some code2 => simp
      | none => cases env.kvSet key (intToStr target) <;> simp
    · rw [if_neg hcn]
      simp

theorem finishMove_no_create (env : Env) (cfg : StaffConfig) (who : WhoAmI)
    (c : Client) (key : Str) (cn : Bool) (target : Int) (nm : Str) (p : Int) :
    Act.create nm p ∉ (finishMove env cfg who c key cn target).1 := by
  intro hmem
  rcases finishMove_acts env cfg who c key cn target _ hmem with
    ⟨i, t, he⟩ | ⟨i, m, he⟩ | he | ⟨v, he⟩ <;> cases he

theorem processClient_hit (env : Env) (cfg : StaffConfig) (who : WhoAmI)
    (suid : Str) (c : Client) (fuel : Nat) (s : Str) (n : Int)
    (hdb : ¬ c.client_database_id = who.client_database_id)
    (hch : c.channel_id ∈ cfg.monitor_channels)
    (hty : ¬ c.client_type = 1)
    (hget : env.kvGet (build_redis_key c.client_database_id suid c.channel_id)
      = .ok (some s))
    (hparse : parseInt s = some n) :
    processClient env cfg who suid c fuel
      = some (Act.kvGet (build_redis_key c.client_database_id suid c.channel_id) ::
          (finishMove env cfg who c
            (build_redis_key c.client_database_id suid c.channel_id) false n).1,
          (finishMove env cfg who c
            (build_redis_key c.client_database_id suid c.channel_id) false n).2) := by
  have hfil : ¬ (c.client_database_id = who.client_database_id
      ∨ ¬ c.channel_id ∈ cfg.monitor_channels ∨ c.client_type = 1) := by
    push_neg
    exact ⟨hdb, hch, hty⟩
  unfold processClient
  rw [if_neg hfil]
  dsimp only
  rw [hget]
  dsimp only [Option.bind]
  rw [hparse]

/-- C3: for every client passing the scan filter whose cache entry for
the key derived from (database id, server unique id, current channel) is
present and parseable as an integer, the scan iteration takes the
cache-hit branch: the target channel is the cached value, a move of the
client to that value is issued, and channel creation is never invoked
for that client; the iteration is deterministic, so every repeated scan
against the same environment behaves identically. -/
theorem c3_cache_hit_no_create (env : Env) (cfg : StaffConfig) (who : WhoAmI)
    (suid : Str) (c : Client) (fuel : Nat) (s : Str) (n : Int)
    (hdb : ¬ c.client_database_id = who.client_database_id)
    (hch : c.channel_id ∈ cfg.monitor_channels)
    (hty : ¬ c.client_type = 1)
    (hget : env.kvGet (build_redis_key c.client_database_id suid c.channel_id)
      = .ok (some s))
    (hparse : parseInt s = some n) :
    processClient env cfg who suid c fuel
      = some (Act.kvGet (build_redis_key c.client_database_id suid c.channel_id) ::
          (finishMove env cfg who c
            (build_redis_key c.client_database_id suid c.channel_id) false n).1,
          (finishMove env cfg who c
            (build_redis_key c.client_database_id suid c.channel_id) false n).2)
    ∧ Act.move c.client_id n ∈
        Act.kvGet (build_redis_key c.client_database_id suid c.channel_id) ::
          (finishMove env cfg who c
            (build_redis_key c.client_database_id suid c.channel_id) false n).1
    ∧ ∀ nm p, Act.create nm p ∉
        Act.kvGet (build_redis_key c.client_database_id suid c.channel_id) ::
          (finishMove env cfg who c
            (build_redis_key c.client_database_id suid c.channel_id) false n).1 := by
  refine ⟨processClient_hit env cfg who suid c fuel s n hdb hch hty hget hparse, ?_, ?_⟩
  · exact List.mem_cons_of_mem _ (finishMove_move_mem env cfg who c _ false n)
  · intro nm p hmem
    rcases List.mem_cons.mp hmem with he | hmem2
    · cases he
    · exact finishMove_no_create env cfg who c _ false n nm p hmem2

/-- Witness for C3: `alice` with a populated cache entry `50` is moved
to channel 50 and no creation happens. -/
theorem c3_cache_hit_no_create_witness :
    processClient envHit cfgA whoA suidA alice 5
      = some ([Act.kvGet keyA, Act.move 21 50, Act.message 21 (strLit "moved")],
          .done false) :=
  ((c3_cache_hit_no_create envHit cfgA whoA suidA alice 5 (strLit "50") 50
    (by decide) (by decide) (by decide) (by decide) (by decide)).1).trans (by decide)

theorem finishMove_768_ok (env : Env) (cfg : StaffConfig) (who : WhoAmI)
    (c : Client) (key : Str) (cn : Bool) (target : Int) (u : Unit)
    (hm : env.moveClient c.client_id target = some 768)
    (hd : env.kvDelete key = .ok u) :
    finishMove env cfg who c key cn target
      = ([Act.move c.client_id target, Act.kvDelete key], .done true) := by
  unfold finishMove
  rw [hm]
  dsimp only
  rw [if_pos rfl, hd]

theorem finishMove_768_delete_err (env : Env) (cfg : StaffConfig) (who : WhoAmI)
    (c : Client) (key : Str) (cn : Bool) (target : Int) (u : Unit)
    (hm : env.moveClient c.client_id target = some 768)
    (hd : env.kvDelete key = .error u) :
    finishMove env cfg who c key cn target
      = ([Act.move c.client_id target, Act.kvDelete key], .fatal) := by
  unfold finishMove
  rw [hm]
  dsimp only
  rw [if_pos rfl, hd]

theorem finishMove_other_err (env : Env) (cfg : StaffConfig) (who : WhoAmI)
    (c : Client) (key : Str) (cn : Bool) (target : Int) (code : Int)
    (hm : env.moveClient c.client_id target = some code)
    (hc : ¬ code = 768) :
    finishMove env cfg who c key cn target
      = ([Act.move c.client_id target], .done false) := by
  unfold finishMove
  rw [hm]
  dsimp only
  rw [if_neg hc]

/-- C4: during the scan, when the move of a client to its target channel
fails, the engine distinguishes the invalid-channel code 768 — delete
the cache entry, request an immediate rescan (skip the next wait), and
stop processing that client — from every other code, which is logged and
merely skips that client, with no cache deletion and no forced rescan;
stated on the cache-hit path, whose target is the cached value. -/
theorem c4_move_failure (env : Env) (cfg : StaffConfig) (who : WhoAmI)
    (suid : Str) (c : Client) (fuel : Nat) (s : Str) (n code : Int)
    (hdb : ¬ c.client_database_id = who.client_database_id)
    (hch : c.channel_id ∈ cfg.monitor_channels)
    (hty : ¬ c.client_type = 1)
    (hget : env.kvGet (build_redis_key c.client_database_id suid c.channel_id)
      = .ok (some s))
    (hparse : parseInt s = some n)
    (hmove : env.moveClient c.client_id n = some code) :
    (code = 768 → ∀ u,
      env.kvDelete (build_redis_key c.client_database_id suid c.channel_id) = .ok u →
      processClient env cfg who suid c fuel
        = some ([Act.kvGet (build_redis_key c.client_database_id suid c.channel_id),
            Act.move c.client_id n,
            Act.kvDelete (build_redis_key c.client_database_id suid c.channel_id)],
            .done true))
    ∧ (¬ code = 768 →
      processClient env cfg who suid c fuel
        = some ([Act.kvGet (build_redis_key c.client_database_id suid c.channel_id),
            Act.move c.client_id n], .done false)) := by
  constructor
  · intro h768 u hdel
    subst h768
    rw [processClient_hit env cfg who suid c fuel s n hdb hch hty hget hparse,
      finishMove_768_ok env cfg who c _ false n u hmove hdel]
  · intro hother
    rw [processClient_hit env cfg who suid c fuel s n hdb hch hty hget hparse,
      finishMove_other_err env cfg who c _ false n code hmove hother]

/-- Witness for C4: with the cached target stale, a 768 move failure
deletes the entry and requests a rescan; an unrelated code 2568 only
skips the client. -/
theorem c4_move_failure_witness :
    processClient envHit768 cfgA whoA suidA alice 5
      = some ([Act.kvGet keyA, Act.move 21 50, Act.kvDelete keyA], .done true)
    ∧ processClient envHitOther cfgA whoA suidA alice 5
      = some ([Act.kvGet keyA, Act.move 21 50], .done false) :=
  ⟨(c4_move_failure envHit768 cfgA whoA suidA alice 5 (strLit "50") 50 768
      (by decide) (by decide) (by decide) (by decide) (by decide) (by decide)).1
      rfl () (by decide),
   (c4_move_failure envHitOther cfgA whoA suidA alice 5 (strLit "50") 50 2568
      (by decide) (by decide) (by decide) (by decide) (by decide) (by decide)).2
      (by decide)⟩

/-- Counterexample for C5: when unique-id resolution fails during
`DeleteChannel` handling, the engine returns early with an error and the
trace contains no logout attempt — the graceful logout is skipped on
this fatal exit path. -/
theorem c5_counterexample :
    auto_channel_staff envC5 cfgA [.recvEvent (.deleteChannel 7 (strLit "abc"))] 9
      = some ([Act.changeNick, Act.whoAmIQ, Act.serverInfoQ, Act.queryClients,
          Act.resolveUid (strLit "abc")], .earlyErr)
    ∧ Act.logout ∉ [Act.changeNick, Act.whoAmIQ, Act.serverInfoQ, Act.queryClients,
        Act.resolveUid (strLit "abc")] := by
  constructor
  · decide
  · decide

/-- C5 (amended): the engine attempts a graceful logout exactly on the
loop-break exits (a Terminate event or a closed event channel); every
fatal-error exit — both bootstrap failures and errors propagated out of
the loop — returns early without attempting a logout. -/
theorem c5_logout_on_exit (env : Env) (cfg : StaffConfig)
    (events : List WaitOutcome) (fuel : Nat) (tr : List Act) (ex : StaffExit)
    (h : auto_channel_staff env cfg events fuel = some (tr, ex)) :
    (∀ b, ex = .done b → Act.logout ∈ tr)
    ∧ (ex = .earlyErr → Act.logout ∉ tr) := by
  unfold auto_channel_staff at h
  cases hn : env.changeNickname with
  | error u =>
    rw [hn] at h
    simp only [Option.some.injEq, Prod.mk.injEq] at h
    rcases h with ⟨rfl, rfl⟩
    exact ⟨fun b hb => (by cases hb), fun _ => (by decide)⟩
  | ok _ =>
    rw [hn] at h
    dsimp only at h
    cases hw : env.whoAmI with
    | error u =>
      rw [hw] at h
      simp only [Option.some.injEq, Prod.mk.injEq] at h
      rcases h with ⟨rfl, rfl⟩
      exact ⟨fun b hb => (by cases hb), fun _ => (by decide)⟩
    | ok who =>
      rw [hw] at h
      dsimp only at h
      cases hs : env.serverInfo with
      | error u =>
        rw [hs] at h
        simp only [Option.some.injEq, Prod.mk.injEq] at h
        rcases h with ⟨rfl, rfl⟩
        exact ⟨fun b hb => (by cases hb), fun _ => (by decide)⟩
      | ok sinfo =>
        rw [hs] at h
        dsimp only at h
        cases hr : runLoop env cfg who sinfo.virtual_server_unique_identifier
            fuel ⟨false, true⟩ events with
        | none => rw [hr] at h; cases h
        | some pr =>
          rw [hr] at h
          rcases pr with ⟨acts, lex⟩
          have hng := goodActs_no_logout
            (runLoop_good env cfg who sinfo.virtual_server_unique_identifier
              fuel ⟨false, true⟩ events acts lex hr)
          cases lex with
          | brk =>
            dsimp only at h
            simp only [Option.some.injEq, Prod.mk.injEq] at h
            rcases h with ⟨rfl, rfl⟩
            constructor
            · intro b hb
              simp [List.mem_append]
            · intro hcontra
              cases he : env.logout with
              | ok u => rw [he] at hcontra; cases hcontra
              | error u => rw [he] at hcontra; cases hcontra
          | fatalL =>
            dsimp only at h
            simp only [Option.some.injEq, Prod.mk.injEq] at h
            rcases h with ⟨rfl, rfl⟩
            constructor
            · intro b hb; cases hb
            · intro _ hmem
              rcases List.mem_append.mp hmem with hm1 | hm2
              · simp at hm1
              · exact hng hm2
          | panickedL =>
            dsimp only at h
            simp only [Option.some.injEq, Prod.mk.injEq] at h
            rcases h with ⟨rfl, rfl⟩
            exact ⟨fun b hb => (by cases hb), fun hcontra => (by cases hcontra)⟩
          | starved =>
            dsimp only at h
            simp only [Option.some.injEq, Prod.mk.injEq] at h
            rcases h with ⟨rfl, rfl⟩
            exact ⟨fun b hb => (by cases hb), fun hcontra => (by cases hcontra)⟩

/-- Witness for C5 (amended): a run terminated by a Terminate event does
attempt the logout. -/
theorem c5_logout_on_exit_witness :
    Act.logout ∈ [Act.changeNick, Act.whoAmIQ, Act.serverInfoQ, Act.queryClients,
      Act.logout] :=
  (c5_logout_on_exit baseEnv cfgA [.recvEvent .terminate] 9
    [Act.changeNick, Act.whoAmIQ, Act.serverInfoQ, Act.queryClients, Act.logout]
    (.done false) (by decide)).1 false rfl

theorem create_loop_collide_none :
    ∀ (fuel : Nat) (name : Str), create_loop collideEnv 10 name fuel = none := by
  intro fuel
  induction fuel with
  | zero => intro name; rfl
  | succ n ih =>
    intro name
    show create_loop collideEnv 10 name (Nat.succ n) = none
    unfold create_loop
    show (if (771 : Int) = 771 then
      match create_loop collideEnv 10 (name ++ ['1']) n with
      | none => none
      | some (acts, r) => some (Act.create name 10 :: acts, r) else _) = none
    rw [if_pos rfl, ih]

/-- Counterexample for C6: against a server that reports the
name-collision code 771 for every attempted name, the retry loop never
terminates — no amount of fuel makes it return. -/
theorem c6_counterexample : ¬ createLoopTerminates collideEnv 10 (strLit "a") := by
  rintro ⟨fuel, r, h⟩
  rw [create_loop_collide_none fuel (strLit "a")] at h
  cases h

theorem ones_shift (base : Str) (j : Nat) :
    (base ++ ['1']) ++ ones j = base ++ ones (j + 1) := by
  simp [ones, List.replicate_succ, List.append_assoc]

/-- C6 (amended): provided some attempt is eventually accepted — say the
first k attempts collide with code 771 and attempt k returns a new
channel id — the retry loop terminates within any fuel above k, the
attempted names are exactly the base name followed by one more literal
`'1'` per collision (a strictly length-growing sequence), and the
accepted channel id is the loop's result, which the provisioning steps
then use.  Without such an accepting attempt the loop does not
terminate. -/
theorem c6_collision_retry (env : Env) (pid : Int) :
    ∀ (k : Nat) (base : Str) (cid : Int) (fuel : Nat),
      (∀ j, j < k → env.createChannel (base ++ ones j) pid = .err 771) →
      env.createChannel (base ++ ones k) pid = .okSome cid →
      k < fuel →
      (create_loop env pid base fuel
        = some ((List.range (k + 1)).map (fun j => Act.create (base ++ ones j) pid),
            .accepted cid)
        ∧ ∀ i j, i < j → j ≤ k →
            (base ++ ones i).length < (base ++ ones j).length) := by
  intro k
  induction k with
  | zero =>
    intro base cid fuel hcoll hacc hfuel
    refine ⟨?_, ?_⟩
    · cases fuel with
      | zero => exact absurd hfuel (by omega)
      | succ n =>
        unfold create_loop
        have hacc' : env.createChannel base pid = .okSome cid := by
          simpa [ones] using hacc
        rw [hacc']
        have h1 : List.range 1 = [0] := rfl
        simp [h1, ones]
    · intro i j hij hj
      omega
  | succ k ih =>
    intro base cid fuel hcoll hacc hfuel
    have hcoll0 : env.createChannel base pid = .err 771 := by
      have := hcoll 0 (by omega)
      simpa [ones] using this
    cases fuel with
    | zero => exact absurd hfuel (by omega)
    | succ n =>
      have hrec := ih (base ++ ['1']) cid n
        (fun j hj => by rw [ones_shift]; exact hcoll (j + 1) (by omega))
        (by rw [ones_shift]; exact hacc)
        (by omega)
      refine ⟨?_, ?_⟩
      · have hlist :
            (List.range (k + 1 + 1)).map (fun j => Act.create (base ++ ones j) pid)
              = Act.create base pid ::
                (List.range (k + 1)).map
                  (fun j => Act.create (base ++ ['1'] ++ ones j) pid) := by
          rw [List.range_succ_eq_map, List.map_cons, List.map_map]
          congr 1
          · simp [ones]
          · apply List.map_congr_left
            intro j hj
            simp only [Function.comp_apply]
            rw [ones_shift]
        unfold create_loop
        rw [hcoll0]
        dsimp only
        rw [if_pos rfl, hrec.1]
        dsimp only
        rw [hlist]
      · intro i j hij hj
        simp only [List.length_append, ones, List.length_replicate]
        omega

/-- Witness for C6 (amended): one collision on `"a"`, then `"a1"` is
accepted with channel id 42; the attempted names are `"a"`, `"a1"`. -/
theorem c6_collision_retry_witness :
    create_loop envC6 7 (strLit "a") 3
      = some ((List.range 2).map (fun j => Act.create (strLit "a" ++ ones j) 7),
          .accepted 42) :=
  (c6_collision_retry envC6 7 1 (strLit "a") 42 3
    (by
      intro j hj
      have hj0 : j = 0 := by omega
      subst hj0
      decide)
    (by decide) (by omega)).1

/-- C7: in every run of the engine loop, channels are created only under
a monitored parent, cache entries are stored only under keys derived
from a monitored channel, and permission modifications (channel
permissions and the client's channel group) target only a channel that
the same run freshly created under a monitored parent. -/
theorem c7_monitored_scope (env : Env) (cfg : StaffConfig) (who : WhoAmI)
    (suid : Str) (fuel : Nat) (st : LoopState) (events : List WaitOutcome)
    (tr : List Act) (ex : LoopExit)
    (h : runLoop env cfg who suid fuel st events = some (tr, ex)) :
    (∀ nm p, Act.create nm p ∈ tr → p ∈ cfg.monitor_channels)
    ∧ (∀ k v, Act.kvSet k v ∈ tr →
        ∃ dbid ch, ch ∈ cfg.monitor_channels ∧ k = build_redis_key dbid suid ch)
    ∧ (∀ cid ps, Act.addPerm cid ps ∈ tr →
        ∃ nm p, p ∈ cfg.monitor_channels ∧ Act.create nm p ∈ tr
          ∧ env.createChannel nm p = CreateResp.okSome cid)
    ∧ (∀ d cid g, Act.setChannelGroup d cid g ∈ tr →
        ∃ nm p, p ∈ cfg.monitor_channels ∧ Act.create nm p ∈ tr
          ∧ env.createChannel nm p = CreateResp.okSome cid) := by
  have hg := runLoop_good env cfg who suid fuel st events tr ex h
  refine ⟨?_, ?_, ?_, ?_⟩
  · intro nm p hmem
    simpa [GoodAct] using hg _ hmem
  · intro k v hmem
    simpa [GoodAct] using hg _ hmem
  · intro cid ps hmem
    simpa [GoodAct] using hg _ hmem
  · intro d cid g hmem
    simpa [GoodAct] using hg _ hmem

/-- Witness for C7: in the provisioning run (scenario A) the one created
channel has the monitored channel 10 as its parent. -/
theorem c7_monitored_scope_witness : (10 : Int) ∈ cfgA.monitor_channels :=
  (c7_monitored_scope envA cfgA whoA suidA 9 ⟨false, true⟩ [.recvEvent .terminate]
    trA .brk (by decide)).1 nmA 10 (by decide)

/-- Counterexample for C8: with the user-state map enabled, a
`ShouldRefresh` event itself falls straight through into a scan, which
clears the flag — so the next 30-unit wait-timeout does not fall through
into a scan and performs only the keep-alive. -/
theorem c8_counterexample :
    loopIter baseEnv cfgB whoA suidA false (.recvEvent .shouldRefresh) 5
      = some ([Act.queryClients, Act.queryChannels], .toNext ⟨false, false⟩)
    ∧ loopIter baseEnv cfgB whoA suidA false .timedOut 5
      = some ([Act.keepAlive], .toNext ⟨false, false⟩)
    ∧ Act.queryClients ∉ [Act.keepAlive] := by
  refine ⟨by decide, by decide, by decide⟩

theorem scanPhase_queryClients_mem (env : Env) (cfg : StaffConfig) (who : WhoAmI)
    (suid : Str) (sr : Bool) (fuel : Nat) (acts : List Act) (r : ScanRes)
    (h : scanPhase env cfg who suid sr fuel = some (acts, r)) :
    Act.queryClients ∈ acts := by
  unfold scanPhase at h
  cases hq : env.queryClients with
  | error u =>
    rw [hq] at h
    simp only [Option.some.injEq, Prod.mk.injEq] at h
    rcases h with ⟨rfl, rfl⟩
    simp
  | ok clients =>
    rw [hq] at h
    dsimp only at h
    cases hs : scanClients env cfg who suid clients false fuel with
    | none => rw [hs] at h; cases h
    | some pr =>
      rw [hs] at h
      rcases pr with ⟨acts1, r1⟩
      cases r1 with
      | done ss =>
        dsimp only at h
        by_cases hum : cfg.user_map_enabled = true
        · rw [if_pos hum] at h
          simp only [Option.some.injEq, Prod.mk.injEq] at h
          rcases h with ⟨rfl, rfl⟩
          simp
        · rw [if_neg hum] at h
          simp only [Option.some.injEq, Prod.mk.injEq] at h
          rcases h with ⟨rfl, rfl⟩
          simp
      | fatal =>
        dsimp only at h
        simp only [Option.some.injEq, Prod.mk.injEq] at h
        rcases h with ⟨rfl, rfl⟩
        simp
      | panicked =>
        dsimp only at h
        simp only [Option.some.injEq, Prod.mk.injEq] at h
        rcases h with ⟨rfl, rfl⟩
        simp

theorem afterWait_queryClients_mem (env : Env) (cfg : StaffConfig) (who : WhoAmI)
    (suid : Str) (sr : Bool) (pre : List Act) (fuel : Nat) (acts : List Act)
    (r : IterRes) (h : afterWait env cfg who suid sr pre fuel = some (acts, r)) :
    Act.queryClients ∈ acts := by
  unfold afterWait at h
  cases hs : scanPhase env cfg who suid sr fuel with
  | none => rw [hs] at h; cases h
  | some pr2 =>
    rw [hs] at h
    rcases pr2 with ⟨acts1, r1⟩
    have hm := scanPhase_queryClients_mem env cfg who suid sr fuel acts1 r1 hs
    cases r1 with
    | cont sr' ss' =>
      dsimp only at h
      simp only [Option.some.injEq, Prod.mk.injEq] at h
      rcases h with ⟨rfl, rfl⟩
      exact List.mem_append_right _ hm
    | fatal =>
      dsimp only at h
      simp only [Option.some.injEq, Prod.mk.injEq] at h
      rcases h with ⟨rfl, rfl⟩
      exact List.mem_append_right _ hm
    | panicked =>
      dsimp only at h
      simp only [Option.some.injEq, Prod.mk.injEq] at h
      rcases h with ⟨rfl, rfl⟩
      exact List.mem_append_right _ hm

/-- C8 (amended): a `ShouldRefresh` event sets the refresh flag and
itself falls straight through into a scan; a wait-timeout falls through
into a scan exactly when the flag is still set, and otherwise performs
only the keep-alive query (plus the mute porter when enabled) and keeps
waiting; the flag is cleared at the end of a scan only when the
user-state map is enabled — when it is disabled the flag survives, so
later timeouts keep scanning. -/
theorem c8_refresh_flag (env : Env) (cfg : StaffConfig) (who : WhoAmI)
    (suid : Str) (fuel : Nat) :
    (cfg.mute_porter.enable = false →
      loopIter env cfg who suid false .timedOut fuel
        = some ([Act.keepAlive], .toNext ⟨false, false⟩))
    ∧ (∀ acts r, loopIter env cfg who suid true .timedOut fuel = some (acts, r) →
        Act.queryClients ∈ acts)
    ∧ (∀ sr acts r,
        loopIter env cfg who suid sr (.recvEvent .shouldRefresh) fuel = some (acts, r) →
        Act.queryClients ∈ acts)
    ∧ (env.queryClients = .ok [] → cfg.user_map_enabled = true → ∀ sr,
        loopIter env cfg who suid sr (.recvEvent .shouldRefresh) fuel
          = some ([Act.queryClients, Act.queryChannels], .toNext ⟨false, false⟩))
    ∧ (env.queryClients = .ok [] → cfg.user_map_enabled = false → ∀ sr,
        loopIter env cfg who suid sr (.recvEvent .shouldRefresh) fuel
          = some ([Act.queryClients], .toNext ⟨true, false⟩)) := by
  refine ⟨?_, ?_, ?_, ?_, ?_⟩
  · intro hmp
    unfold loopIter
    rw [hmp]
    rfl
  · intro acts r h
    unfold loopIter at h
    by_cases hmp : cfg.mute_porter.enable = true
    · rw [hmp] at h
      dsimp only at h
      cases hpf : mute_porter_function env cfg.mute_porter with
      | mk pacts pres =>
        rw [hpf] at h
        cases pres with
        | error u =>
          dsimp only at h
          simp only [Option.some.injEq, Prod.mk.injEq] at h
          rcases h with ⟨rfl, rfl⟩
          have : pacts.head? = some Act.queryClients ∨ Act.queryClients ∈ pacts := by
            unfold mute_porter_function at hpf
            cases hq : env.queryClients with
            | error v =>
              rw [hq] at hpf
              simp only [Prod.mk.injEq] at hpf
              rcases hpf with ⟨rfl, he⟩
              exact Or.inr (by simp)
            | ok clients =>
              rw [hq] at hpf
              simp only [Prod.mk.injEq] at hpf
              rcases hpf with ⟨rfl, he⟩
              exact Or.inr (by simp)
          rcases this with h1 | h1
          · cases pacts with
            | nil => cases h1
            | cons x xs =>
              simp only [List.head?] at h1
              injection h1 with h1
              subst h1
              simp
          · exact List.mem_cons_of_mem _ h1
        | ok u =>
          dsimp only at h
          rw [if_pos rfl] at h
          exact afterWait_queryClients_mem env cfg who suid true _ fuel acts r h
    · simp only [Bool.not_eq_true] at hmp
      rw [hmp] at h
      dsimp only at h
      rw [if_pos rfl] at h
      exact afterWait_queryClients_mem env cfg who suid true _ fuel acts r h
  · intro sr acts r h
    unfold loopIter at h
    exact afterWait_queryClients_mem env cfg who suid true [] fuel acts r h
  · intro hq hum sr
    unfold loopIter afterWait scanPhase scanClients
    rw [hq, hum]
    rfl
  · intro hq hum sr
    unfold loopIter afterWait scanPhase scanClients
    rw [hq, hum]
    rfl

/-- Witness for C8 (amended): concrete instances of the no-refresh
timeout and of the immediate scan triggered by `ShouldRefresh`. -/
theorem c8_refresh_flag_witness :
    loopIter baseEnv cfgB whoA suidA false .timedOut 5
      = some ([Act.keepAlive], .toNext ⟨false, false⟩)
    ∧ loopIter baseEnv cfgB whoA suidA true (.recvEvent .shouldRefresh) 5
      = some ([Act.queryClients, Act.queryChannels], .toNext ⟨false, false⟩)
    ∧ loopIter baseEnv cfgA whoA suidA true (.recvEvent .shouldRefresh) 5
      = some ([Act.queryClients], .toNext ⟨true, false⟩) :=
  ⟨(c8_refresh_flag baseEnv cfgB whoA suidA 5).1 (by decide),
   (c8_refresh_flag baseEnv cfgB whoA suidA 5).2.2.2.1 (by decide) (by decide) true,
   (c8_refresh_flag baseEnv cfgA whoA suidA 5).2.2.2.2 (by decide) (by decide) true⟩

/-- C10: KV-store failures are fatal asymmetrically — a failed KV get
during the scan, a failed KV delete in the stale-cache (code 768)
branch, and a failed KV set persisting a freshly provisioned channel
each abort the session with a fatal outcome, whereas KV delete failures
during `DeleteChannel` event handling are only logged and the loop
continues into the scan as usual. -/
theorem c10_kv_failure_asymmetry :
    (∀ (env : Env) (cfg : StaffConfig) (who : WhoAmI) (suid : Str) (c : Client)
      (fuel : Nat) (u : Unit),
      ¬ c.client_database_id = who.client_database_id →
      c.channel_id ∈ cfg.monitor_channels → ¬ c.client_type = 1 →
      env.kvGet (build_redis_key c.client_database_id suid c.channel_id) = .error u →
      processClient env cfg who suid c fuel
        = some ([Act.kvGet (build_redis_key c.client_database_id suid c.channel_id)],
            .fatal))
    ∧ (∀ (env : Env) (cfg : StaffConfig) (who : WhoAmI) (suid : Str) (c : Client)
      (fuel : Nat) (s : Str) (n : Int) (u : Unit),
      ¬ c.client_database_id = who.client_database_id →
      c.channel_id ∈ cfg.monitor_channels → ¬ c.client_type = 1 →
      env.kvGet (build_redis_key c.client_database_id suid c.channel_id)
        = .ok (some s) →
      parseInt s = some n →
      env.moveClient c.client_id n = some 768 →
      env.kvDelete (build_redis_key c.client_database_id suid c.channel_id)
        = .error u →
      processClient env cfg who suid c fuel
        = some ([Act.kvGet (build_redis_key c.client_database_id suid c.channel_id),
            Act.move c.client_id n,
            Act.kvDelete (build_redis_key c.client_database_id suid c.channel_id)],
            .fatal))
    ∧ (∀ (env : Env) (cfg : StaffConfig) (who : WhoAmI) (suid : Str) (c : Client)
      (fuel : Nat) (cid : Int) (u : Unit),
      ¬ c.client_database_id = who.client_database_id →
      c.channel_id ∈ cfg.monitor_channels → ¬ c.client_type = 1 →
      env.kvGet (build_redis_key c.client_database_id suid c.channel_id) = .ok none →
      env.createChannel (c.client_nickname ++ strLit "'s channel") c.channel_id
        = .okSome cid →
      lookupPerms cfg.channel_permissions c.channel_id = none →
      env.moveClient c.client_id cid = none →
      env.moveClient who.client_id c.channel_id = none →
      env.kvSet (build_redis_key c.client_database_id suid c.channel_id)
        (intToStr cid) = .error u →
      processClient env cfg who suid c (fuel + 1)
        = some ([Act.kvGet (build_redis_key c.client_database_id suid c.channel_id),
            Act.create (c.client_nickname ++ strLit "'s channel") c.channel_id,
            Act.setChannelGroup c.client_database_id cid cfg.privilege_group,
            Act.addPerm cid [(133, 75)],
            Act.move c.client_id cid,
            Act.message c.client_id cfg.moved_message,
            Act.move who.client_id c.channel_id,
            Act.kvSet (build_redis_key c.client_database_id suid c.channel_id)
              (intToStr cid)], .fatal))
    ∧ (∀ (env : Env) (cfg : StaffConfig) (who : WhoAmI) (suid : Str) (sr : Bool)
      (fuel : Nat) (clid : Int) (uid : Str) (dbid : Int),
      env.resolveUid uid = .ok ⟨dbid⟩ →
      env.queryClients = .ok [] →
      cfg.user_map_enabled = false →
      loopIter env cfg who suid sr (.recvEvent (.deleteChannel clid uid)) fuel
        = some ((Act.resolveUid uid ::
            (cfg.monitor_channels.map
              (fun ch => Act.kvDelete (build_redis_key dbid suid ch))
            ++ [Act.message clid (strLit "Received.")])) ++ [Act.queryClients],
            .toNext ⟨sr, false⟩)) := by
  refine ⟨?_, ?_, ?_, ?_⟩
  · intro env cfg who suid c fuel u hdb hch hty hget
    have hfil : ¬ (c.client_database_id = who.client_database_id
        ∨ ¬ c.channel_id ∈ cfg.monitor_channels ∨ c.client_type = 1) := by
      push_neg
      exact ⟨hdb, hch, hty⟩
    unfold processClient
    rw [if_neg hfil]
    dsimp only
    rw [hget]
  · intro env cfg who suid c fuel s n u hdb hch hty hget hparse hmove hdel
    rw [processClient_hit env cfg who suid c fuel s n hdb hch hty hget hparse,
      finishMove_768_delete_err env cfg who c _ false n u hmove hdel]
  · intro env cfg who suid c fuel cid u hdb hch hty hget hcreate hlp hmove1 hmove2 hset
    have hfil : ¬ (c.client_database_id = who.client_database_id
        ∨ ¬ c.channel_id ∈ cfg.monitor_channels ∨ c.client_type = 1) := by
      push_neg
      exact ⟨hdb, hch, hty⟩
    unfold processClient
    rw [if_neg hfil]
    dsimp only
    rw [hget]
    dsimp only [Option.bind]
    unfold create_loop
    rw [hcreate]
    dsimp only
    rw [hlp]
    dsimp only
    unfold finishMove
    rw [hmove1]
    dsimp only
    rw [hmove2]
    dsimp only
    rw [hset]
    rfl
  · intro env cfg who suid sr fuel clid uid dbid hres hq hum
    unfold loopIter
    dsimp only
    rw [hres]
    dsimp only
    unfold afterWait scanPhase
    rw [hq]
    dsimp only
    unfold scanClients
    dsimp only
    rw [hum]
    rfl

/-- Witness for C10: the four asymmetric outcomes on concrete
environments — fatal get, fatal stale-delete, fatal set, and a
`DeleteChannel` handler that shrugs off delete failures. -/
theorem c10_kv_failure_asymmetry_witness :
    processClient envGetErr cfgA whoA suidA alice 5 = some ([Act.kvGet keyA], .fatal)
    ∧ processClient envDel768Err cfgA whoA suidA alice 5
      = some ([Act.kvGet keyA, Act.move 21 50, Act.kvDelete keyA], .fatal)
    ∧ processClient envSetErr cfgA whoA suidA alice 5
      = some ([Act.kvGet keyA, Act.create nmA 10, Act.setChannelGroup 5 50 99,
          Act.addPerm 50 [(133, 75)], Act.move 21 50, Act.message 21 (strLit "moved"),
          Act.move 1 10, Act.kvSet keyA (strLit "50")], .fatal)
    ∧ loopIter envDelErr cfgA whoA suidA false (.recvEvent (.deleteChannel 7 (strLit "u"))) 5
      = some ([Act.resolveUid (strLit "u"), Act.kvDelete keyA,
          Act.message 7 (strLit "Received."), Act.queryClients],
          .toNext ⟨false, false⟩) :=
  ⟨c10_kv_failure_asymmetry.1 envGetErr cfgA whoA suidA alice 5 ()
      (by decide) (by decide) (by decide) (by decide),
   c10_kv_failure_asymmetry.2.1 envDel768Err cfgA whoA suidA alice 5 (strLit "50") 50 ()
      (by decide) (by decide) (by decide) (by decide) (by decide) (by decide) (by decide),
   (c10_kv_failure_asymmetry.2.2.1 envSetErr cfgA whoA suidA alice 4 50 ()
      (by decide) (by decide) (by decide) (by decide) (by decide) (by decide)
      (by decide) (by decide) (by decide)).trans (by decide),
   (c10_kv_failure_asymmetry.2.2.2 envDelErr cfgA whoA suidA false 5 7 (strLit "u") 5
      (by decide) (by decide) (by decide)).trans (by decide)⟩
